import Mathlib

/-! SPU2 sound output ring buffer (pcsx2/SPU2/SndOut.cpp).

A shallow embedding of the sample ring buffer of `SndBuffer`, its underrun and
overrun handling and the read/write primitives, of the sample format
conversions, the backend registry, `Init` and the packetizer `Write`, and of
`_mcd::DoXor` (pcsx2/Sio.h), followed by theorems about them.

Conventions of the embedding.

* `s32` / `int` values are mathematical integers (`Int`).  Signed overflow is
  undefined in C++, so the embedding describes the executions that stay inside
  the 32-bit range.  The C++ operators `/` and `%` truncate toward zero and are
  `Int.tdiv` and `Int.tmod`.  The bitwise operators of `GetAlignedBufferSize`
  work on the 32-bit two's complement pattern (`and32`, `not32`).
* Memory reached through a pointer is a function from the element index
  (relative to the pointer) to the element; `p + k` is `ptrAdd p k`.
  `m_buffer` is the memory seen from the start of the ring, the ring itself
  being the slots `0 .. m_size - 1`.
* A function that writes through a pointer argument returns the new contents
  of that memory next to the new state.  Caller buffers are disjoint from the
  ring.
* `SndOutPacketSize`, `SynchMode`, `AdvancedVolumeControl` and the frame types
  with their `ResampleFrom` / `AdjustFrom` are declared outside `SndOut.cpp`
  and enter as parameters.
* Console logging (`ConLog`) has no effect on the modelled state and is left
  out.
* `Write` contains a block under `#if defined(_WIN32) && !defined(PCSX2_CORE)`;
  both builds are embedded, selected by `Config.dspBuild`.
-/

namespace SPU2

/-! ## Data model -/

/-- The working-precision stereo sample `StereoOut32` (two `s32` channels). -/
structure StereoOut32 where
  Left : Int
  Right : Int
deriving DecidableEq

/-- The constant `StereoOut32::Empty(0, 0)`. -/
def StereoOut32.Empty : StereoOut32 := ⟨0, 0⟩

instance : Inhabited StereoOut32 := ⟨StereoOut32.Empty⟩

/-- Pointer arithmetic `p + k`: the memory seen from `k` elements further. -/
def ptrAdd {α : Type} (p : Int → α) (k : Int) : Int → α :=
  fun i => p (i + k)

/-- The call `memcpy(dst, src, n * sizeof(elem))`: the first `n` elements seen
from `dst` become the first `n` elements seen from `src` (nothing is copied
for `n ≤ 0`). -/
def memcpy {α : Type} (dst src : Int → α) (n : Int) : Int → α :=
  fun j => if 0 ≤ j ∧ j < n then src j else dst j

/-- The call `memset(dst, 0, n * sizeof(elem))`, where `zero` is the element
whose bytes are all zero. -/
def memset {α : Type} (dst : Int → α) (zero : α) (n : Int) : Int → α :=
  fun j => if 0 ≤ j ∧ j < n then zero else dst j

/-- The first `n` elements seen from a pointer, as a list. -/
def samples {α : Type} (p : Int → α) (n : Nat) : List α :=
  (List.range n).map (fun (i : Nat) => p (i : Int))

/-- The unsigned 32-bit pattern of an `s32`. -/
def toU32 (x : Int) : Nat := (x % 2 ^ 32).toNat

/-- The `s32` denoted by an unsigned 32-bit pattern. -/
def ofU32 (u : Nat) : Int := if u < 2 ^ 31 then (u : Int) else (u : Int) - 2 ^ 32

/-- Bitwise `a & b` on `s32`. -/
def and32 (a b : Int) : Int := ofU32 (toU32 a &&& toU32 b)

/-- Bitwise `~a` on `s32`. -/
def not32 (a : Int) : Int := ofU32 (2 ^ 32 - 1 - toU32 a)

/-- `GetAlignedBufferSize`:
`return (comp + SndOutPacketSize - 1) & ~(SndOutPacketSize - 1);` -/
def GetAlignedBufferSize (SndOutPacketSize : Int) (comp : Int) : Int :=
  and32 (comp + SndOutPacketSize - 1) (not32 (SndOutPacketSize - 1))

/-- The static state of `SndBuffer` that the ring buffer code reads and
writes, with `lastPct` and `m_predictData` of the time-stretcher, which the
ring buffer code resets.  `lastPct` is only ever assigned `0.0` here and is
kept as an integer. -/
structure SndBuffer where
  m_buffer : Int → StereoOut32
  m_size : Int
  m_rpos : Int
  m_wpos : Int
  m_underrun_freeze : Bool
  m_predictData : Int
  lastPct : Int
  stretchUnderruns : Nat

/-- The configuration and capabilities of an output frame type `T`
(`StereoOut16`, `Stereo51Out32`, ...): its two ingestion methods, each
updating a frame in place from one ring sample, and the frame whose bytes are
all zero. -/
structure FrameOps (T : Type) where
  ResampleFrom : T → StereoOut32 → T
  AdjustFrom : T → StereoOut32 → T
  zero : T

namespace SndBuffer

/-- Modelled from the spec: `SndBuffer::timeStretchUnderrun`, a lifecycle hook
of the external time-stretcher, defined outside `SndOut.cpp` ("notify the
external time-stretcher of an underrun event").  The notification is counted;
the ring buffer is not touched. -/
def timeStretchUnderrun (s : SndBuffer) : SndBuffer :=
  { s with stretchUnderruns := s.stretchUnderruns + 1 }

/-- `_GetApproximateDataInBuffer`:
`return (m_wpos + m_size - m_rpos) % m_size;` -/
def _GetApproximateDataInBuffer (s : SndBuffer) : Int :=
  Int.tmod (s.m_wpos + s.m_size - s.m_rpos) s.m_size

/-- The result of `CheckUnderrunStatus`: the state, the two reference
arguments after the call and the returned flag. -/
structure UnderrunStatus where
  state : SndBuffer
  nSamples : Int
  quietSampleCount : Int
  ret : Bool

/-- `CheckUnderrunStatus(int& nSamples, int& quietSampleCount)`. -/
def CheckUnderrunStatus (SndOutPacketSize SynchMode : Int) (s : SndBuffer)
    (nSamples : Int) : UnderrunStatus :=
  let data := s._GetApproximateDataInBuffer
  if s.m_underrun_freeze then
    let toFill := Int.tdiv s.m_size (if SynchMode = 2 then 32 else 400)
    let toFill := GetAlignedBufferSize SndOutPacketSize toFill
    if data < toFill then
      { state := s, nSamples := 0, quietSampleCount := nSamples, ret := false }
    else
      { state := { s with m_underrun_freeze := false, lastPct := 0 },
        nSamples := nSamples, quietSampleCount := 0, ret := true }
  else if data < nSamples then
    let s1 := { s with m_underrun_freeze := true }
    let s2 := if SynchMode = 0 then s1.timeStretchUnderrun else s1
    { state := s2, nSamples := data, quietSampleCount := nSamples - data,
      ret := decide (data ≠ 0) }
  else
    { state := s, nSamples := nSamples, quietSampleCount := 0, ret := true }

/-- `_WriteSamples_Internal`: one `memcpy` into the ring at `m_wpos`, then
`m_wpos = (m_wpos + nSamples) % m_size`. -/
def _WriteSamples_Internal (s : SndBuffer) (bData : Int → StereoOut32)
    (nSamples : Int) : SndBuffer :=
  { s with
    m_buffer := ptrAdd (memcpy (ptrAdd s.m_buffer s.m_wpos) bData nSamples) (-s.m_wpos)
    m_wpos := Int.tmod (s.m_wpos + nSamples) s.m_size }

/-- `_DropSamples_Internal`: `m_rpos = (m_rpos + nSamples) % m_size`.  The sum
is an `s32` sum in the source; this definition is exact while it fits in 32
bits (see `_DropSamples_Internal32`). -/
def _DropSamples_Internal (s : SndBuffer) (nSamples : Int) : SndBuffer :=
  { s with m_rpos := Int.tmod (s.m_rpos + nSamples) s.m_size }

/-- `_ReadSamples_Internal`: one `memcpy` out of the ring at `m_rpos`, then
`_DropSamples_Internal(nSamples)`.  Returns the caller's memory too. -/
def _ReadSamples_Internal (s : SndBuffer) (bData : Int → StereoOut32)
    (nSamples : Int) : SndBuffer × (Int → StereoOut32) :=
  (s._DropSamples_Internal nSamples, memcpy bData (ptrAdd s.m_buffer s.m_rpos) nSamples)

/-- `_WriteSamples_Safe`: split in two segments when the write straddles the
physical end of the ring. -/
def _WriteSamples_Safe (s : SndBuffer) (bData : Int → StereoOut32)
    (nSamples : Int) : SndBuffer :=
  if s.m_size - s.m_wpos < nSamples then
    let b1 := s.m_size - s.m_wpos
    let b2 := nSamples - b1
    (s._WriteSamples_Internal bData b1)._WriteSamples_Internal (ptrAdd bData b1) b2
  else
    s._WriteSamples_Internal bData nSamples

/-- `_ReadSamples_Safe`: split in two segments when the read straddles the
physical end of the ring. -/
def _ReadSamples_Safe (s : SndBuffer) (bData : Int → StereoOut32)
    (nSamples : Int) : SndBuffer × (Int → StereoOut32) :=
  if s.m_size - s.m_rpos < nSamples then
    let b1 := s.m_size - s.m_rpos
    let b2 := nSamples - b1
    let r1 := s._ReadSamples_Internal bData b1
    let r2 := r1.1._ReadSamples_Internal (ptrAdd r1.2 b1) b2
    (r2.1, ptrAdd r2.2 (-b1))
  else
    s._ReadSamples_Internal bData nSamples

/-- The loop `for (int i = 0; i < n; i++) bData[i + d].conv(m_buffer[i + r]);`
after its first `n` iterations. -/
def convertLoop {T : Type} (conv : T → StereoOut32 → T) (buf : Int → StereoOut32)
    (r d : Int) : Nat → (Int → T) → (Int → T)
  | 0, bData => bData
  | n + 1, bData =>
    let cur := convertLoop conv buf r d n bData
    Function.update cur ((n : Int) + d) (conv (cur ((n : Int) + d)) (buf ((n : Int) + r)))

/-- `ReadSamples<T>(T* bData, int nSamples)`.  The hint
`pxAssume(nSamples <= SndOutPacketSize)` has no effect on the state. -/
def ReadSamples {T : Type} (ops : FrameOps T) (SndOutPacketSize SynchMode : Int)
    (AdvancedVolumeControl : Bool) (s : SndBuffer) (bData : Int → T)
    (nSamples : Int) : SndBuffer × (Int → T) :=
  let st := CheckUnderrunStatus SndOutPacketSize SynchMode s nSamples
  let nSamples := st.nSamples
  let quietSamples := st.quietSampleCount
  let r :=
    if st.ret then
      let b1 := st.state.m_size - st.state.m_rpos
      let b1 := if b1 > nSamples then nSamples else b1
      let conv := if AdvancedVolumeControl then ops.AdjustFrom else ops.ResampleFrom
      let first := convertLoop conv st.state.m_buffer st.state.m_rpos 0 b1.toNat bData
      let b2 := nSamples - b1
      let second := convertLoop conv st.state.m_buffer 0 b1 b2.toNat first
      (st.state._DropSamples_Internal nSamples, second)
    else
      (st.state, bData)
  if quietSamples > 0 then
    (r.1, ptrAdd (memset (ptrAdd r.2 nSamples) ops.zero quietSamples) (-nSamples))
  else
    r

/-- `_WriteSamples`: the overrun policy in front of `_WriteSamples_Safe`
(the branch compiled in is the one that discards the incoming packet). -/
def _WriteSamples (s : SndBuffer) (bData : Int → StereoOut32) (nSamples : Int) :
    SndBuffer :=
  let s := { s with m_predictData := 0 }
  let free := s.m_size - s._GetApproximateDataInBuffer
  if free ≤ nSamples then
    { s with lastPct := 0 }
  else
    s._WriteSamples_Safe bData nSamples

/-! ## Sequences of calls -/

/-- One call of the ring buffer interface, with the caller's buffer and a
non-negative sample count. -/
inductive Op (T : Type) where
  | WriteSamples (bData : Int → StereoOut32) (nSamples : Nat)
  | WriteSamples_Safe (bData : Int → StereoOut32) (nSamples : Nat)
  | ReadSamples (bData : Int → T) (nSamples : Nat)
  | ReadSamples_Safe (bData : Int → StereoOut32) (nSamples : Nat)
  | DropSamples_Internal (nSamples : Nat)

/-- The state after one call. -/
def applyOp {T : Type} (ops : FrameOps T) (SndOutPacketSize SynchMode : Int)
    (AdvancedVolumeControl : Bool) (s : SndBuffer) : Op T → SndBuffer
  | Op.WriteSamples bData n => s._WriteSamples bData n
  | Op.WriteSamples_Safe bData n => s._WriteSamples_Safe bData n
  | Op.ReadSamples bData n =>
    (ReadSamples ops SndOutPacketSize SynchMode AdvancedVolumeControl s bData n).1
  | Op.ReadSamples_Safe bData n => (s._ReadSamples_Safe bData n).1
  | Op.DropSamples_Internal n => s._DropSamples_Internal n

/-- The state after a sequence of calls, first call first. -/
def runOps {T : Type} (ops : FrameOps T) (SndOutPacketSize SynchMode : Int)
    (AdvancedVolumeControl : Bool) (s : SndBuffer) : List (Op T) → SndBuffer
  | [] => s
  | op :: rest =>
    runOps ops SndOutPacketSize SynchMode AdvancedVolumeControl
      (applyOp ops SndOutPacketSize SynchMode AdvancedVolumeControl s op) rest

/-- The total sample count of a sequence of (buffer, count) calls. -/
def totalCount {α : Type} : List (α × Nat) → Nat
  | [] => 0
  | c :: cs => c.2 + totalCount cs

/-- The state after a sequence of `_WriteSamples_Safe` calls. -/
def writeAll (s : SndBuffer) : List ((Int → StereoOut32) × Nat) → SndBuffer
  | [] => s
  | c :: cs => writeAll (s._WriteSamples_Safe c.1 c.2) cs

/-- The samples passed to a sequence of write calls, concatenated. -/
def written : List ((Int → StereoOut32) × Nat) → List StereoOut32
  | [] => []
  | c :: cs => samples c.1 c.2 ++ written cs

/-- The state after a sequence of `_ReadSamples_Safe` calls, and the samples
the calls returned, concatenated. -/
def readAll (s : SndBuffer) : List ((Int → StereoOut32) × Nat) → SndBuffer × List StereoOut32
  | [] => (s, [])
  | c :: cs =>
    let r := s._ReadSamples_Safe c.1 c.2
    let rest := readAll r.1 cs
    (rest.1, samples r.2 c.2 ++ rest.2)

/-- The ring holds exactly the samples `L`, oldest first, in the slots from
`m_rpos` up to `m_wpos`. -/
def Holds (s : SndBuffer) (L : List StereoOut32) : Prop :=
  0 ≤ s.m_rpos ∧ s.m_rpos < s.m_size ∧ (L.length : Int) < s.m_size ∧
  s.m_wpos = (s.m_rpos + L.length) % s.m_size ∧
  ∀ i : Nat, i < L.length → L[i]? = some (s.m_buffer ((s.m_rpos + i) % s.m_size))

/-- The state after a sequence of `_WriteSamples` calls of `n` samples each. -/
def writePackets (n : Nat) (s : SndBuffer) : List (Int → StereoOut32) → SndBuffer
  | [] => s
  | d :: ds => writePackets n (s._WriteSamples d n) ds

/-- The state after a sequence of `ReadSamples` calls of `n` samples each, and
the frames the calls returned, concatenated. -/
def readPackets {T : Type} (ops : FrameOps T) (SndOutPacketSize SynchMode : Int)
    (AdvancedVolumeControl : Bool) (n : Nat) (s : SndBuffer) :
    List (Int → T) → SndBuffer × List T
  | [] => (s, [])
  | b :: bs =>
    let r := ReadSamples ops SndOutPacketSize SynchMode AdvancedVolumeControl s b n
    let rest := readPackets ops SndOutPacketSize SynchMode AdvancedVolumeControl n r.1 bs
    (rest.1, samples r.2 n ++ rest.2)

end SndBuffer

/-- The frames obtained by converting the first `n` samples of `src` into the
first `n` frames of `out`. -/
def convertAll {T : Type} (conv : T → StereoOut32 → T) (out : Int → T)
    (src : Int → StereoOut32) (n : Nat) : List T :=
  (List.range n).map (fun (i : Nat) => conv (out (i : Int)) (src (i : Int)))

/-! ## Concrete states used to instantiate the theorems -/

/-- A ring of `size` slots, all holding `StereoOut32::Empty`, with the given
cursors and freeze flag. -/
def ringOf (size rpos wpos : Int) (frozen : Bool) : SndBuffer :=
  { m_buffer := fun _ => StereoOut32.Empty, m_size := size, m_rpos := rpos, m_wpos := wpos,
    m_underrun_freeze := frozen, m_predictData := 0, lastPct := 0, stretchUnderruns := 0 }

/-- A caller buffer whose `i`-th sample is `(base + i, -(base + i))`. -/
def ramp (base : Int) : Int → StereoOut32 :=
  fun i => ⟨base + i, -(base + i)⟩

/-- A ring of `size` slots in which slot `j` holds `(100 + j, -(100 + j))`. -/
def rampRing (size rpos wpos : Int) (frozen : Bool) : SndBuffer :=
  { ringOf size rpos wpos frozen with m_buffer := ramp 100 }

/-- The ring of the overrun scenario right after `Init`: 64 slots (4 packets
of 16 samples) with arbitrary content, both cursors at 0, not frozen. -/
def scenarioRing (buf0 : Int → StereoOut32) : SndBuffer :=
  { ringOf 64 0 0 false with m_buffer := buf0 }

/-- A frame type that stores the ring sample unchanged, for either strategy. -/
def rawFrame : FrameOps StereoOut32 :=
  { ResampleFrom := fun _ x => x, AdjustFrom := fun _ x => x, zero := StereoOut32.Empty }

/-! ## Sample formats, backends, packetizer and memory-card checksum -/

/-- Modelled from the spec: `StereoOut16`, the device-precision stereo sample
(two 16-bit integer channels), declared outside `SndOut.cpp`. -/
structure StereoOut16 where
  Left : Int
  Right : Int
deriving DecidableEq

/-- The value an `int` takes when it is stored in an `s16`. -/
def wrap16 (x : Int) : Int :=
  if x % 2 ^ 16 < 2 ^ 15 then x % 2 ^ 16 else x % 2 ^ 16 - 2 ^ 16

/-- The value of a 32-bit result: its low 32 bits read as an `s32`. -/
def wrap32 (x : Int) : Int := ofU32 (toU32 x)

/-- `StereoOut32::DownSample`: each channel `>> SndOutVolumeShift` (arithmetic
shift), stored in a 16-bit channel. -/
def StereoOut32.DownSample (SndOutVolumeShift : Nat) (s : StereoOut32) : StereoOut16 :=
  { Left := wrap16 (s.Left >>> SndOutVolumeShift),
    Right := wrap16 (s.Right >>> SndOutVolumeShift) }

/-- `StereoOut16::UpSample`: each channel `<< SndOutVolumeShift`, in 32 bits. -/
def StereoOut16.UpSample (SndOutVolumeShift : Nat) (s : StereoOut16) : StereoOut32 :=
  { Left := wrap32 (s.Left * 2 ^ SndOutVolumeShift),
    Right := wrap32 (s.Right * 2 ^ SndOutVolumeShift) }

/-- The refill divisor inside `CheckUnderrunStatus`:
`(SynchMode == 2) ? 32 : 400`. -/
def refillDivisor (SynchMode : Int) : Int := if SynchMode = 2 then 32 else 400

/-- An output backend (`SndOutModule`) as far as this file uses it: the
results of its `Init`, `GetEmptySampleCount`, `GetIdent` and `GetLongName`.
Backends are singletons, so a backend pointer is identified with the value. -/
structure SndOutModule where
  Init : Bool
  GetEmptySampleCount : Int
  GetIdent : String
  GetLongName : String
deriving DecidableEq

/-- The backend `NullOut` (`NullOutModule`). -/
def NullOut : SndOutModule :=
  { Init := true, GetEmptySampleCount := 0, GetIdent := "nullout",
    GetLongName := "No Sound (Emulate SPU2 only)" }

/-- The loop of `FindOutputModuleById` with the counter at `modcnt`, the list
being `mods[modcnt], mods[modcnt + 1], ...` up to the terminating `nullptr`;
`std::strcmp(a, b) == 0` is equality of the two strings. -/
def findOutputModuleFrom (omodid : String) : List SndOutModule → Nat → Nat
  | [], modcnt => modcnt
  | m :: rest, modcnt =>
    if m.GetIdent = omodid then modcnt else findOutputModuleFrom omodid rest (modcnt + 1)

/-- `FindOutputModuleById`, over the backends listed before the terminating
`nullptr`. -/
def FindOutputModuleById (mods : List SndOutModule) (omodid : String) : Nat :=
  findOutputModuleFrom omodid mods 0

/-- What the packetizer and `Init` read but never write: the constants, the
configuration, the backend list `mods` (entries before the `nullptr`), whether
the block under `#if defined(_WIN32) && !defined(PCSX2_CORE)` is compiled
(`dspBuild`), and the external `DspProcess`, which receives the memory of
`sndTempBuffer16`, the offset of its pointer argument in `s16` units and the
sample count, and returns the memory it leaves and its result. -/
structure Config where
  SndOutPacketSize : Int
  SndOutVolumeShift : Nat
  SynchMode : Int
  mods : List SndOutModule
  dspBuild : Bool
  dspPluginEnabled : Bool
  DspProcess : (Int → StereoOut16) → Int → Int → (Int → StereoOut16) × Int

/-- The statics of `SndBuffer` around the ring, the selected backend index
`OutputModule`, and the packets handed to the time-stretcher so far. -/
structure Pipeline where
  ring : SndBuffer
  sndTempBuffer : Int → StereoOut32
  sndTempBuffer16 : Int → StereoOut16
  sndTempProgress : Int
  m_dsp_progress : Int
  ssFreeze : Int
  OutputModule : Nat
  stretchWrites : List (List StereoOut32)

namespace SndBuffer

/-- Modelled from the spec: `SndBuffer::timeStretchWrite`, defined with the
time-stretcher outside `SndOut.cpp` ("the packet is handed to the external
time-stretcher").  The packet in `sndTempBuffer` is recorded; what the
stretcher forwards into the ring later is not modelled. -/
def timeStretchWrite (cfg : Config) (st : Pipeline) : Pipeline :=
  { st with
    stretchWrites := st.stretchWrites ++ [samples st.sndTempBuffer cfg.SndOutPacketSize.toNat] }

/-- The commit at the end of `Write`:
`if (SynchMode == 0) timeStretchWrite(); else _WriteSamples(sndTempBuffer, SndOutPacketSize);` -/
def commitPacket (cfg : Config) (st : Pipeline) : Pipeline :=
  if cfg.SynchMode = 0 then timeStretchWrite cfg st
  else { st with ring := st.ring._WriteSamples st.sndTempBuffer cfg.SndOutPacketSize }

/-- The body of `if (ssFreeze > 0)` in `Write`: `ssFreeze--` and
`std::fill_n(sndTempBuffer, SndOutPacketSize, StereoOut32{})`. -/
def silencePacket (cfg : Config) (st : Pipeline) : Pipeline :=
  { st with
    ssFreeze := st.ssFreeze - 1
    sndTempBuffer := memset st.sndTempBuffer StereoOut32.Empty cfg.SndOutPacketSize }

/-- The loop `for (i = 0; i < n; ++i, ++ei) sndTempBuffer16[ei] =
sndTempBuffer[i].DownSample();` after its first `n` iterations. -/
def downSampleLoop (shift : Nat) (src : Int → StereoOut32) (ei : Int) :
    Nat → (Int → StereoOut16) → (Int → StereoOut16)
  | 0, b => b
  | n + 1, b =>
    Function.update (downSampleLoop shift src ei n b) (ei + n) ((src n).DownSample shift)

/-- The loop `for (i = 0; i < n; ++i, ++ei) sndTempBuffer[i] =
sndTempBuffer16[ei].UpSample();` after its first `n` iterations. -/
def upSampleLoop (shift : Nat) (src : Int → StereoOut16) (ei : Int) :
    Nat → (Int → StereoOut32) → (Int → StereoOut32)
  | 0, b => b
  | n + 1, b =>
    Function.update (upSampleLoop shift src ei n b) n ((src (ei + n)).UpSample shift)

/-- The loop `while (m_dsp_progress >= SndOutPacketSize)` of the DSP block,
from the state with the given `ei`; one unit of fuel per iteration (the loop
ends within `m_dsp_progress` iterations when `SndOutPacketSize > 0`). -/
def dspDrain (cfg : Config) : Nat → Pipeline → Int → Pipeline × Int
  | 0, st, ei => (st, ei)
  | fuel + 1, st, ei =>
    if st.m_dsp_progress ≥ cfg.SndOutPacketSize then
      let st1 := { st with
        sndTempBuffer := upSampleLoop cfg.SndOutVolumeShift st.sndTempBuffer16 ei
          cfg.SndOutPacketSize.toNat st.sndTempBuffer }
      let st2 := commitPacket cfg st1
      dspDrain cfg fuel { st2 with m_dsp_progress := st2.m_dsp_progress - cfg.SndOutPacketSize }
        (ei + cfg.SndOutPacketSize)
    else (st, ei)

/-- The body of `if (dspPluginEnabled)` in `Write`. -/
def dspStage (cfg : Config) (st : Pipeline) : Pipeline :=
  let b16 := downSampleLoop cfg.SndOutVolumeShift st.sndTempBuffer st.m_dsp_progress
    cfg.SndOutPacketSize.toNat st.sndTempBuffer16
  let r := cfg.DspProcess b16 st.m_dsp_progress cfg.SndOutPacketSize
  let st1 := { st with sndTempBuffer16 := r.1, m_dsp_progress := st.m_dsp_progress + r.2 }
  let d := dspDrain cfg (st1.m_dsp_progress.toNat + 1) st1 0
  if d.1.m_dsp_progress > 0 then
    { d.1 with
      sndTempBuffer16 :=
        memcpy d.1.sndTempBuffer16 (ptrAdd d.1.sndTempBuffer16 d.2) d.1.m_dsp_progress }
  else d.1

/-- The part of `Write` that follows `sndTempProgress = 0`.  With the DSP
block compiled, `if (ssFreeze > 0) {...}` is a statement of its own and
`else` belongs to `if (dspPluginEnabled)`; without it, `else` belongs to
`if (ssFreeze > 0)`. -/
def flushPacket (cfg : Config) (st : Pipeline) : Pipeline :=
  if cfg.dspBuild then
    let st1 := if st.ssFreeze > 0 then silencePacket cfg st else st
    if cfg.dspPluginEnabled then dspStage cfg st1 else commitPacket cfg st1
  else
    if st.ssFreeze > 0 then silencePacket cfg st else commitPacket cfg st

/-- `SndBuffer::Write(const StereoOut32& Sample)`.  The wave dump and the
recording of the sample write files only and are left out. -/
def Write (cfg : Config) (st : Pipeline) (Sample : StereoOut32) : Pipeline :=
  if cfg.mods[st.OutputModule]? = some NullOut then st
  else
    let st1 := { st with
      sndTempBuffer := Function.update st.sndTempBuffer st.sndTempProgress Sample
      sndTempProgress := st.sndTempProgress + 1 }
    if st1.sndTempProgress < cfg.SndOutPacketSize then st1
    else flushPacket cfg { st1 with sndTempProgress := 0 }

/-- `SndBuffer::ClearContents`: `soundtouchClearContents()` belongs to the
time-stretcher and has no effect on the state kept here. -/
def ClearContents (st : Pipeline) : Pipeline :=
  { st with ssFreeze := 256 }

/-- `SndBuffer::_InitFail`; the result of the `Init()` call on the selected
backend is not used. -/
def _InitFail (cfg : Config) (st : Pipeline) : Pipeline :=
  { st with OutputModule := FindOutputModuleById cfg.mods NullOut.GetIdent }

/-- `SndBuffer::Init`.  `comp` is the value of
`(int)(latencyMS * SampleRate / 1000.0f)`, `allocs` the number of `new`
expressions that succeed before one throws `std::bad_alloc` (3 or more: none
throws), and `fresh32`, `freshTemp`, `fresh16` the contents of the arrays
allocated.  `soundtouchInit()` belongs to the time-stretcher. -/
def Init (cfg : Config) (allocs : Nat) (comp : Int) (fresh32 freshTemp : Int → StereoOut32)
    (fresh16 : Int → StereoOut16) (st : Pipeline) : Pipeline :=
  match cfg.mods[st.OutputModule]? with
  | none => _InitFail cfg st
  | some backend =>
    let st1 := { st with ring := { st.ring with m_rpos := 0, m_wpos := 0 } }
    let st2 := { st1 with
      ring := { st1.ring with m_size := GetAlignedBufferSize cfg.SndOutPacketSize comp } }
    if allocs = 0 then _InitFail cfg st2
    else
      let st3 := { st2 with
        ring := { st2.ring with m_buffer := fresh32, m_underrun_freeze := false } }
      if allocs = 1 then _InitFail cfg st3
      else
        let st4 := { st3 with sndTempBuffer := freshTemp }
        if allocs = 2 then _InitFail cfg st4
        else
          let st5 := { st4 with sndTempBuffer16 := fresh16, sndTempProgress := 0 }
          if backend.Init then st5 else _InitFail cfg st5

/-- The state after submitting the samples `xs` one by one with `Write`. -/
def submitAll (cfg : Config) (st : Pipeline) : List StereoOut32 → Pipeline
  | [] => st
  | x :: xs => submitAll cfg (Write cfg st x) xs

end SndBuffer

namespace _mcd

/-- The loop of `_mcd::DoXor` from the state `(i, x)`, both `u8`:
`for (...; i < length; i++) x ^= buf[i];`, one unit of fuel per test of the
condition; `none` when the fuel runs out before the loop exits. -/
def DoXorLoop (buf : Int → Nat) (length : Nat) : Nat → Nat → Nat → Option Nat
  | 0, _, _ => none
  | fuel + 1, i, x =>
    if i < length then DoXorLoop buf length fuel ((i + 1) % 256) ((x ^^^ buf i) % 256)
    else some x

/-- `_mcd::DoXor(const u8 *buf, uint length)` run with the given fuel. -/
def DoXor (fuel : Nat) (buf : Int → Nat) (length : Nat) : Option Nat :=
  DoXorLoop buf length fuel 0 0

end _mcd

/-- The bitwise XOR of `buf[0], ..., buf[n - 1]`. -/
def xorOfBytes (buf : Int → Nat) (n : Nat) : Nat :=
  (List.range n).foldl (fun acc (i : Nat) => acc ^^^ buf (i : Int)) 0

/-- A backend other than `NullOut`, standing for a device backend. -/
def deviceBackend : SndOutModule :=
  { Init := true, GetEmptySampleCount := 0, GetIdent := "device", GetLongName := "Device" }

/-- A backend whose `Init` fails. -/
def failingBackend : SndOutModule :=
  { Init := false, GetEmptySampleCount := 0, GetIdent := "broken", GetLongName := "Broken" }

/-- A configuration with packets of 4 samples, a volume shift of 12, the
backends `NullOut`, `deviceBackend`, `failingBackend`, and a DSP plugin that
leaves the buffer as it is and reports no output. -/
def testConfig (SynchMode : Int) (dspBuild dspPluginEnabled : Bool) : Config :=
  { SndOutPacketSize := 4, SndOutVolumeShift := 12, SynchMode := SynchMode,
    mods := [NullOut, deviceBackend, failingBackend],
    dspBuild := dspBuild, dspPluginEnabled := dspPluginEnabled,
    DspProcess := fun b _ _ => (b, 0) }

/-- A pipeline around an empty ring of 64 slots, with `deviceBackend`
selected, an empty accumulator and the given post-clear counter. -/
def testPipeline (ssFreeze : Int) : Pipeline :=
  { ring := ringOf 64 0 0 false, sndTempBuffer := fun _ => StereoOut32.Empty,
    sndTempBuffer16 := fun _ => ⟨0, 0⟩, sndTempProgress := 0, m_dsp_progress := 0,
    ssFreeze := ssFreeze, OutputModule := 1, stretchWrites := [] }

/-! ## Definitions for the 32-bit range, impostor backends and the DSP route -/

namespace SndBuffer

/-- The sample count of a call. -/
def Op.count {T : Type} : Op T → Nat
  | Op.WriteSamples _ n => n
  | Op.WriteSamples_Safe _ n => n
  | Op.ReadSamples _ n => n
  | Op.ReadSamples_Safe _ n => n
  | Op.DropSamples_Internal n => n

/-- `_DropSamples_Internal` with the `s32` sum `m_rpos + nSamples` taken in 32
bits (two's complement), which is what the addition leaves once it exceeds
the `s32` range; it agrees with `_DropSamples_Internal` while the sum fits. -/
def _DropSamples_Internal32 (s : SndBuffer) (nSamples : Int) : SndBuffer :=
  { s with m_rpos := Int.tmod (wrap32 (s.m_rpos + nSamples)) s.m_size }

/-- `_GetApproximateDataInBuffer` with the `s32` sum and difference
`(m_wpos + m_size) - m_rpos` taken in 32 bits. -/
def _GetApproximateDataInBuffer32 (s : SndBuffer) : Int :=
  Int.tmod (wrap32 (wrap32 (s.m_wpos + s.m_size) - s.m_rpos)) s.m_size

end SndBuffer

/-- The configuration `testConfig` in fixed-rate mode with the DSP block
compiled and the plugin enabled, for a plugin that leaves the buffer as it is
and reports `produced` samples of output. -/
def dspTestConfig (produced : Int) : Config :=
  { testConfig 2 true true with DspProcess := fun b _ _ => (b, produced) }

/-! ## Arithmetic of wrapped cursors -/

theorem emod_shift (x m k : Int) (h0 : 0 ≤ x - k * m) (h1 : x - k * m < m) :
    x % m = x - k * m := by
  have h : x = (x - k * m) + k * m := by ring
  rw [h, Int.add_mul_emod_self, Int.emod_eq_of_lt h0 h1]
  ring

theorem tmod_shift (x m k : Int) (hx : 0 ≤ x) (h0 : 0 ≤ x - k * m) (h1 : x - k * m < m) :
    Int.tmod x m = x - k * m := by
  have hm : 0 ≤ m := by omega
  rw [Int.tmod_eq_emod hx hm]
  exact emod_shift x m k h0 h1

theorem tmod_range (x m : Int) (hx : 0 ≤ x) (hm : 0 < m) :
    0 ≤ Int.tmod x m ∧ Int.tmod x m < m := by
  rw [Int.tmod_eq_emod hx (le_of_lt hm)]
  exact ⟨Int.emod_nonneg _ (by omega), Int.emod_lt_of_pos _ hm⟩

namespace SndBuffer

/-! ## The primitives in closed form -/

theorem writeInternal_buffer (s : SndBuffer) (d : Int → StereoOut32) (n j : Int) :
    (s._WriteSamples_Internal d n).m_buffer j =
      if s.m_wpos ≤ j ∧ j < s.m_wpos + n then d (j - s.m_wpos) else s.m_buffer j := by
  simp only [_WriteSamples_Internal, ptrAdd, memcpy]
  by_cases h : s.m_wpos ≤ j ∧ j < s.m_wpos + n
  · rw [if_pos h, if_pos (by omega)]
    congr 1
  · rw [if_neg h, if_neg (by omega)]
    congr 1
    omega

theorem writeSafe_wpos (s : SndBuffer) (d : Int → StereoOut32) (n : Int)
    (hw0 : 0 ≤ s.m_wpos) (hw1 : s.m_wpos < s.m_size) (hn : 0 ≤ n) :
    (s._WriteSamples_Safe d n).m_wpos = (s.m_wpos + n) % s.m_size := by
  unfold _WriteSamples_Safe
  split
  · next h =>
    simp only [_WriteSamples_Internal]
    have e1 : s.m_wpos + (s.m_size - s.m_wpos) = s.m_size := by ring
    rw [e1, Int.tmod_self, Int.tmod_eq_emod (by omega) (by omega)]
    have e2 : s.m_wpos + n = (0 + (n - (s.m_size - s.m_wpos))) + 1 * s.m_size := by ring
    rw [e2, Int.add_mul_emod_self]
  · next h =>
    simp only [_WriteSamples_Internal]
    rw [Int.tmod_eq_emod (by omega) (by omega)]

theorem writeSafe_frame (s : SndBuffer) (d : Int → StereoOut32) (n : Int) :
    (s._WriteSamples_Safe d n).m_size = s.m_size ∧
    (s._WriteSamples_Safe d n).m_rpos = s.m_rpos ∧
    (s._WriteSamples_Safe d n).m_underrun_freeze = s.m_underrun_freeze := by
  unfold _WriteSamples_Safe
  split <;> simp [_WriteSamples_Internal]

theorem writeSafe_buffer (s : SndBuffer) (d : Int → StereoOut32) (n j : Int)
    (hn : n ≤ s.m_size) :
    (s._WriteSamples_Safe d n).m_buffer j =
      if s.m_wpos ≤ j ∧ j < s.m_wpos + n ∧ j < s.m_size then d (j - s.m_wpos)
      else if 0 ≤ j ∧ j < s.m_wpos + n - s.m_size then d (j - s.m_wpos + s.m_size)
      else s.m_buffer j := by
  unfold _WriteSamples_Safe
  split
  · next h =>
    have hw : (s._WriteSamples_Internal d (s.m_size - s.m_wpos)).m_wpos = 0 := by
      simp only [_WriteSamples_Internal]
      have e1 : s.m_wpos + (s.m_size - s.m_wpos) = s.m_size := by ring
      rw [e1, Int.tmod_self]
    rw [writeInternal_buffer, hw, writeInternal_buffer]
    by_cases c2 : 0 ≤ j ∧ j < s.m_wpos + n - s.m_size
    · rw [if_pos (by omega), if_neg (by omega), if_pos c2]
      simp only [ptrAdd]
      congr 1
      omega
    · rw [if_neg (by omega)]
      by_cases c1 : s.m_wpos ≤ j ∧ j < s.m_size
      · rw [if_pos (by omega), if_pos (by omega)]
      · rw [if_neg (by omega), if_neg (by omega), if_neg c2]
  · next h =>
    rw [writeInternal_buffer]
    by_cases c1 : s.m_wpos ≤ j ∧ j < s.m_wpos + n
    · rw [if_pos c1, if_pos (by omega)]
    · rw [if_neg c1, if_neg (by omega), if_neg (by omega)]

theorem readSafe_state (s : SndBuffer) (out : Int → StereoOut32) (n : Int) :
    (s._ReadSamples_Safe out n).1.m_size = s.m_size ∧
    (s._ReadSamples_Safe out n).1.m_wpos = s.m_wpos ∧
    (s._ReadSamples_Safe out n).1.m_buffer = s.m_buffer ∧
    (s._ReadSamples_Safe out n).1.m_underrun_freeze = s.m_underrun_freeze := by
  unfold _ReadSamples_Safe
  split <;> simp [_ReadSamples_Internal, _DropSamples_Internal]

theorem readSafe_rpos (s : SndBuffer) (out : Int → StereoOut32) (n : Int)
    (hr0 : 0 ≤ s.m_rpos) (hr1 : s.m_rpos < s.m_size) (hn : 0 ≤ n) :
    (s._ReadSamples_Safe out n).1.m_rpos = (s.m_rpos + n) % s.m_size := by
  unfold _ReadSamples_Safe
  split
  · next h =>
    simp only [_ReadSamples_Internal, _DropSamples_Internal]
    have e1 : s.m_rpos + (s.m_size - s.m_rpos) = s.m_size := by ring
    rw [e1, Int.tmod_self, Int.tmod_eq_emod (by omega) (by omega)]
    have e2 : s.m_rpos + n = (0 + (n - (s.m_size - s.m_rpos))) + 1 * s.m_size := by ring
    rw [e2, Int.add_mul_emod_self]
  · next h =>
    simp only [_ReadSamples_Internal, _DropSamples_Internal]
    rw [Int.tmod_eq_emod (by omega) (by omega)]

theorem readSafe_out (s : SndBuffer) (out : Int → StereoOut32) (n i : Int)
    (hr1 : s.m_rpos < s.m_size) :
    (s._ReadSamples_Safe out n).2 i =
      if 0 ≤ i ∧ i < n then
        (if s.m_rpos + i < s.m_size then s.m_buffer (s.m_rpos + i)
         else s.m_buffer (s.m_rpos + i - s.m_size))
      else out i := by
  unfold _ReadSamples_Safe
  split
  · next h =>
    have e1 : s.m_rpos + (s.m_size - s.m_rpos) = s.m_size := by ring
    simp only [_ReadSamples_Internal, _DropSamples_Internal, ptrAdd, memcpy, e1, Int.tmod_self]
    by_cases c2 : s.m_size - s.m_rpos ≤ i ∧ i < n
    · rw [if_pos (by omega), if_pos (by omega), if_neg (by omega)]
      congr 1
      omega
    · rw [if_neg (by omega)]
      by_cases c1 : 0 ≤ i ∧ i < s.m_size - s.m_rpos
      · rw [if_pos (by omega), if_pos (by omega), if_pos (by omega)]
        congr 1
        omega
      · rw [if_neg (by omega), if_neg (by omega)]
        congr 1
        omega
  · next h =>
    simp only [_ReadSamples_Internal, ptrAdd, memcpy]
    by_cases c1 : 0 ≤ i ∧ i < n
    · rw [if_pos c1, if_pos c1, if_pos (by omega)]
      congr 1
      omega
    · rw [if_neg c1, if_neg c1]

end SndBuffer

/-! ## Overrun drop -/

/-- C2: when the free space `m_size - _GetApproximateDataInBuffer()` is at most
the packet size `N`, `_WriteSamples` leaves every slot of the ring, `m_wpos`
and `m_rpos` unchanged: the packet is discarded whole.  (Holds for every state
and every `N`, in particular for cursors inside the ring and `N ≥ 0`.) -/
theorem C2_overrun_drop (s : SndBuffer) (bData : Int → StereoOut32) (N : Int)
    (hfree : s.m_size - s._GetApproximateDataInBuffer ≤ N) :
    (∀ j, (s._WriteSamples bData N).m_buffer j = s.m_buffer j) ∧
    (s._WriteSamples bData N).m_wpos = s.m_wpos ∧
    (s._WriteSamples bData N).m_rpos = s.m_rpos := by
  have h : (s._WriteSamples bData N) = { s with m_predictData := 0, lastPct := 0 } := by
    unfold SndBuffer._WriteSamples
    simp only [SndBuffer._GetApproximateDataInBuffer] at hfree ⊢
    rw [if_pos hfree]
  rw [h]
  exact ⟨fun _ => rfl, rfl, rfl⟩

/-- C2 at a ring of 64 slots holding 48 samples and a packet of 16. -/
theorem C2_overrun_drop_witness :
    (ringOf 64 0 48 false).m_size - (ringOf 64 0 48 false)._GetApproximateDataInBuffer ≤ 16 ∧
    ((∀ j, ((ringOf 64 0 48 false)._WriteSamples (ramp 0) 16).m_buffer j
        = (ringOf 64 0 48 false).m_buffer j) ∧
     ((ringOf 64 0 48 false)._WriteSamples (ramp 0) 16).m_wpos = 48 ∧
     ((ringOf 64 0 48 false)._WriteSamples (ramp 0) 16).m_rpos = 0) :=
  ⟨by decide, C2_overrun_drop (ringOf 64 0 48 false) (ramp 0) 16 (by decide)⟩

/-! ## Underrun entry -/

/-- C3: in a state that is not frozen, `CheckUnderrunStatus` called with
`nSamples = N` grants the occupancy, asks for `N - occupancy` quiet samples
and freezes when occupancy `< N`; it grants `N`, asks for no quiet samples and
stays unfrozen when occupancy `≥ N`. -/
theorem C3_underrun_entry (SndOutPacketSize SynchMode : Int) (s : SndBuffer) (N : Int)
    (hnormal : s.m_underrun_freeze = false) :
    (s._GetApproximateDataInBuffer < N →
      (SndBuffer.CheckUnderrunStatus SndOutPacketSize SynchMode s N).nSamples
          = s._GetApproximateDataInBuffer ∧
      (SndBuffer.CheckUnderrunStatus SndOutPacketSize SynchMode s N).quietSampleCount
          = N - s._GetApproximateDataInBuffer ∧
      (SndBuffer.CheckUnderrunStatus SndOutPacketSize SynchMode s N).state.m_underrun_freeze
          = true) ∧
    (N ≤ s._GetApproximateDataInBuffer →
      (SndBuffer.CheckUnderrunStatus SndOutPacketSize SynchMode s N).nSamples = N ∧
      (SndBuffer.CheckUnderrunStatus SndOutPacketSize SynchMode s N).quietSampleCount = 0 ∧
      (SndBuffer.CheckUnderrunStatus SndOutPacketSize SynchMode s N).state.m_underrun_freeze
          = false) := by
  constructor
  · intro h
    unfold SndBuffer.CheckUnderrunStatus
    simp only [hnormal, Bool.false_eq_true, if_false, if_pos h]
    refine ⟨trivial, trivial, ?_⟩
    split <;> rfl
  · intro h
    unfold SndBuffer.CheckUnderrunStatus
    simp only [hnormal, Bool.false_eq_true, if_false, if_neg (not_lt.mpr h)]
    exact ⟨trivial, trivial, trivial⟩

/-- C3 at a ring of 64 slots holding 10 samples and a request of 16. -/
theorem C3_underrun_entry_witness :
    (ringOf 64 0 10 false).m_underrun_freeze = false ∧
    (SndBuffer.CheckUnderrunStatus 16 2 (ringOf 64 0 10 false) 16).nSamples = 10 ∧
    (SndBuffer.CheckUnderrunStatus 16 2 (ringOf 64 0 10 false) 16).quietSampleCount = 6 ∧
    (SndBuffer.CheckUnderrunStatus 16 2 (ringOf 64 0 10 false) 16).state.m_underrun_freeze
      = true :=
  ⟨rfl, (C3_underrun_entry 16 2 (ringOf 64 0 10 false) 16 rfl).1 (by decide)⟩

/-! ## Writing under the precondition -/

theorem occupancy_eq (s : SndBuffer) (hs : 0 < s.m_size)
    (hr0 : 0 ≤ s.m_rpos) (hr1 : s.m_rpos < s.m_size)
    (hw0 : 0 ≤ s.m_wpos) (hw1 : s.m_wpos < s.m_size) :
    s._GetApproximateDataInBuffer =
      if s.m_rpos ≤ s.m_wpos then s.m_wpos - s.m_rpos
      else s.m_wpos + s.m_size - s.m_rpos := by
  unfold SndBuffer._GetApproximateDataInBuffer
  split
  · exact (tmod_shift _ _ 1 (by omega) (by omega) (by omega)).trans (by ring)
  · exact (tmod_shift _ _ 0 (by omega) (by omega) (by omega)).trans (by ring)

theorem emod_cases (x m : Int) (h0 : 0 ≤ x) (h1 : x < 2 * m) :
    (x < m ∧ x % m = x) ∨ (m ≤ x ∧ x % m = x - m) := by
  by_cases h : x < m
  · exact Or.inl ⟨h, Int.emod_eq_of_lt h0 h⟩
  · exact Or.inr ⟨by omega,
      (emod_shift x m 1 (by omega) (by omega)).trans (by ring)⟩

/-- C8 as stated fails when the count equals the free capacity: a ring of 4
slots with both cursors at 0 has 4 free, and after `_WriteSamples_Safe` of 4
samples the occupancy reported is 0, not 4. -/
theorem C8_counterexample :
    (0 ≤ (ringOf 4 0 0 false).m_rpos ∧
      (ringOf 4 0 0 false).m_rpos < (ringOf 4 0 0 false).m_size) ∧
    (0 ≤ (ringOf 4 0 0 false).m_wpos ∧
      (ringOf 4 0 0 false).m_wpos < (ringOf 4 0 0 false).m_size) ∧
    (0 : Int) ≤ 4 ∧
    (4 : Int) ≤ (ringOf 4 0 0 false).m_size - (ringOf 4 0 0 false)._GetApproximateDataInBuffer ∧
    ((ringOf 4 0 0 false)._WriteSamples_Safe (ramp 0) 4)._GetApproximateDataInBuffer = 0 ∧
    ((ringOf 4 0 0 false)._WriteSamples_Safe (ramp 0) 4)._GetApproximateDataInBuffer
      ≠ (ringOf 4 0 0 false)._GetApproximateDataInBuffer + 4 := by
  decide

/-- C8, amended: for cursors inside the ring and every count with
`0 ≤ count < m_size - occupancy` (one slot stays free), the occupancy after
`_WriteSamples_Safe(data, count)` is the occupancy before plus `count`. -/
theorem C8_write_occupancy (s : SndBuffer) (bData : Int → StereoOut32) (count : Int)
    (hr0 : 0 ≤ s.m_rpos) (hr1 : s.m_rpos < s.m_size)
    (hw0 : 0 ≤ s.m_wpos) (hw1 : s.m_wpos < s.m_size)
    (hc0 : 0 ≤ count) (hc1 : count < s.m_size - s._GetApproximateDataInBuffer) :
    (s._WriteSamples_Safe bData count)._GetApproximateDataInBuffer
      = s._GetApproximateDataInBuffer + count := by
  have hs : 0 < s.m_size := by omega
  have hocc := occupancy_eq s hs hr0 hr1 hw0 hw1
  have hw := SndBuffer.writeSafe_wpos s bData count hw0 hw1 hc0
  obtain ⟨hsz, hrp, -⟩ := SndBuffer.writeSafe_frame s bData count
  have hcw : s.m_wpos + count < 2 * s.m_size := by
    rw [hocc] at hc1
    split at hc1 <;> omega
  have hocc2 := occupancy_eq (s._WriteSamples_Safe bData count) (by omega) (by omega)
    (by omega)
    (by rw [hw]; exact Int.emod_nonneg _ (by omega))
    (by rw [hw, hsz]; exact Int.emod_lt_of_pos _ hs)
  rw [hocc2, hocc, hw, hsz, hrp]
  rw [hocc] at hc1
  rcases emod_cases (s.m_wpos + count) s.m_size (by omega) hcw with ⟨h1, h2⟩ | ⟨h1, h2⟩ <;>
    rw [h2] <;> split <;> split <;> split at hc1 <;> omega

/-- C8 (amended) at a ring of 4 slots holding 1 sample at slot 3 and a write
of 2 samples, which wraps. -/
theorem C8_write_occupancy_witness :
    (2 : Int) < (ringOf 4 3 0 false).m_size - (ringOf 4 3 0 false)._GetApproximateDataInBuffer ∧
    ((ringOf 4 3 0 false)._WriteSamples_Safe (ramp 0) 2)._GetApproximateDataInBuffer = 1 + 2 :=
  ⟨by decide,
   C8_write_occupancy (ringOf 4 3 0 false) (ramp 0) 2 (by decide) (by decide) (by decide)
     (by decide) (by decide) (by decide)⟩

/-! ## The two-segment write is the modular-index write -/

/-- C9: for a ring of `m_size > 0` slots, `m_wpos` inside the ring and
`0 ≤ n ≤ m_size`, `_WriteSamples_Safe` leaves `data[i]` in slot
`(m_wpos + i) mod m_size` for every `i < n`, leaves every other slot
unchanged and advances `m_wpos` to `(m_wpos + n) mod m_size`. -/
theorem C9_two_segment_write (s : SndBuffer) (data : Int → StereoOut32) (n : Int)
    (hw0 : 0 ≤ s.m_wpos) (hw1 : s.m_wpos < s.m_size)
    (hn0 : 0 ≤ n) (hn1 : n ≤ s.m_size) :
    (∀ i, 0 ≤ i → i < n →
      (s._WriteSamples_Safe data n).m_buffer ((s.m_wpos + i) % s.m_size) = data i) ∧
    (∀ j, (∀ i, 0 ≤ i → i < n → j ≠ (s.m_wpos + i) % s.m_size) →
      (s._WriteSamples_Safe data n).m_buffer j = s.m_buffer j) ∧
    (s._WriteSamples_Safe data n).m_wpos = (s.m_wpos + n) % s.m_size := by
  refine ⟨?_, ?_, SndBuffer.writeSafe_wpos s data n hw0 hw1 hn0⟩
  · intro i hi0 hi1
    rw [SndBuffer.writeSafe_buffer s data n _ hn1]
    rcases emod_cases (s.m_wpos + i) s.m_size (by omega) (by omega) with ⟨h1, h2⟩ | ⟨h1, h2⟩
    · rw [h2, if_pos (by omega)]
      congr 1
      omega
    · rw [h2, if_neg (by omega), if_pos (by omega)]
      congr 1
      omega
  · intro j hj
    rw [SndBuffer.writeSafe_buffer s data n _ hn1]
    by_cases c1 : s.m_wpos ≤ j ∧ j < s.m_wpos + n ∧ j < s.m_size
    · exfalso
      refine hj (j - s.m_wpos) (by omega) (by omega) ?_
      have e : s.m_wpos + (j - s.m_wpos) = j := by ring
      rw [e, Int.emod_eq_of_lt (by omega) (by omega)]
    · rw [if_neg c1]
      by_cases c2 : 0 ≤ j ∧ j < s.m_wpos + n - s.m_size
      · exfalso
        refine hj (j - s.m_wpos + s.m_size) (by omega) (by omega) ?_
        have e : s.m_wpos + (j - s.m_wpos + s.m_size) = j + 1 * s.m_size := by ring
        rw [e, Int.add_mul_emod_self, Int.emod_eq_of_lt (by omega) (by omega)]
      · rw [if_neg c2]

/-- C9 at a ring of 4 slots with `m_wpos = 3` and a write of 3 samples, which
is split in the segments `[3, 4)` and `[0, 2)`. -/
theorem C9_two_segment_write_witness :
    ((ringOf 4 1 3 false)._WriteSamples_Safe (ramp 7) 3).m_buffer ((3 + 2) % 4) = ramp 7 2 ∧
    ((ringOf 4 1 3 false)._WriteSamples_Safe (ramp 7) 3).m_buffer 2
      = (ringOf 4 1 3 false).m_buffer 2 ∧
    ((ringOf 4 1 3 false)._WriteSamples_Safe (ramp 7) 3).m_wpos = (3 + 3) % 4 :=
  have h := C9_two_segment_write (ringOf 4 1 3 false) (ramp 7) 3
    (by decide) (by decide) (by decide) (by decide)
  ⟨h.1 2 (by decide) (by decide), h.2.1 2 (by decide), h.2.2⟩

/-! ## Cursor ownership -/

theorem convertLoop_eq {T : Type} (conv : T → StereoOut32 → T) (buf : Int → StereoOut32)
    (r d : Int) (k : Nat) (bData : Int → T) (j : Int) :
    SndBuffer.convertLoop conv buf r d k bData j =
      if d ≤ j ∧ j < d + k then conv (bData j) (buf (j - d + r)) else bData j := by
  induction k with
  | zero =>
    simp only [SndBuffer.convertLoop]
    rw [if_neg (by omega)]
  | succ k ih =>
    simp only [SndBuffer.convertLoop]
    by_cases hj : j = (k : Int) + d
    · subst hj
      rw [Function.update_same, ih, if_neg (by omega), if_pos (by omega)]
      congr 2
      omega
    · rw [Function.update_noteq hj, ih]
      by_cases c : d ≤ j ∧ j < d + (k : Int)
      · rw [if_pos c, if_pos (by omega)]
      · rw [if_neg c, if_neg (by omega)]

theorem checkUnderrun_frame (SndOutPacketSize SynchMode : Int) (s : SndBuffer) (n : Int) :
    (SndBuffer.CheckUnderrunStatus SndOutPacketSize SynchMode s n).state.m_wpos = s.m_wpos ∧
    (SndBuffer.CheckUnderrunStatus SndOutPacketSize SynchMode s n).state.m_buffer = s.m_buffer ∧
    (SndBuffer.CheckUnderrunStatus SndOutPacketSize SynchMode s n).state.m_rpos = s.m_rpos ∧
    (SndBuffer.CheckUnderrunStatus SndOutPacketSize SynchMode s n).state.m_size = s.m_size := by
  unfold SndBuffer.CheckUnderrunStatus
  simp only
  split_ifs <;> exact ⟨rfl, rfl, rfl, rfl⟩

theorem readSamples_state {T : Type} (ops : FrameOps T) (SndOutPacketSize SynchMode : Int)
    (avc : Bool) (s : SndBuffer) (bData : Int → T) (n : Int) :
    (SndBuffer.ReadSamples ops SndOutPacketSize SynchMode avc s bData n).1 =
      if (SndBuffer.CheckUnderrunStatus SndOutPacketSize SynchMode s n).ret then
        (SndBuffer.CheckUnderrunStatus SndOutPacketSize SynchMode s n).state._DropSamples_Internal
          (SndBuffer.CheckUnderrunStatus SndOutPacketSize SynchMode s n).nSamples
      else (SndBuffer.CheckUnderrunStatus SndOutPacketSize SynchMode s n).state := by
  unfold SndBuffer.ReadSamples
  simp only
  split <;> split <;> rfl

/-- C10: the producer-side operations `_WriteSamples`, `_WriteSamples_Safe`
and `_WriteSamples_Internal` never change `m_rpos`, and the consumer-side
operations `CheckUnderrunStatus`, `ReadSamples`, `_ReadSamples_Safe`,
`_ReadSamples_Internal` and `_DropSamples_Internal` never change `m_wpos` or
the ring `m_buffer`, for every state and every sample count. -/
theorem C10_cursor_ownership {T : Type} (ops : FrameOps T)
    (SndOutPacketSize SynchMode : Int) (avc : Bool) (s : SndBuffer)
    (bData : Int → StereoOut32) (out : Int → T) (n : Int) :
    (s._WriteSamples bData n).m_rpos = s.m_rpos ∧
    (s._WriteSamples_Safe bData n).m_rpos = s.m_rpos ∧
    (s._WriteSamples_Internal bData n).m_rpos = s.m_rpos ∧
    ((SndBuffer.CheckUnderrunStatus SndOutPacketSize SynchMode s n).state.m_wpos = s.m_wpos ∧
     (SndBuffer.CheckUnderrunStatus SndOutPacketSize SynchMode s n).state.m_buffer
       = s.m_buffer) ∧
    ((SndBuffer.ReadSamples ops SndOutPacketSize SynchMode avc s out n).1.m_wpos = s.m_wpos ∧
     (SndBuffer.ReadSamples ops SndOutPacketSize SynchMode avc s out n).1.m_buffer
       = s.m_buffer) ∧
    ((s._ReadSamples_Safe bData n).1.m_wpos = s.m_wpos ∧
     (s._ReadSamples_Safe bData n).1.m_buffer = s.m_buffer) ∧
    ((s._ReadSamples_Internal bData n).1.m_wpos = s.m_wpos ∧
     (s._ReadSamples_Internal bData n).1.m_buffer = s.m_buffer) ∧
    ((s._DropSamples_Internal n).m_wpos = s.m_wpos ∧
     (s._DropSamples_Internal n).m_buffer = s.m_buffer) := by
  have hc := checkUnderrun_frame SndOutPacketSize SynchMode s n
  have hrs := SndBuffer.readSafe_state s bData n
  refine ⟨?_, (SndBuffer.writeSafe_frame s bData n).2.1, rfl, ⟨hc.1, hc.2.1⟩, ?_,
    ⟨hrs.2.1, hrs.2.2.1⟩, ⟨rfl, rfl⟩, ⟨rfl, rfl⟩⟩
  · unfold SndBuffer._WriteSamples
    simp only
    split
    · rfl
    · exact (SndBuffer.writeSafe_frame _ bData n).2.1
  · rw [readSamples_state]
    split
    · exact ⟨hc.1, hc.2.1⟩
    · exact ⟨hc.1, hc.2.1⟩

/-! ## ReadSamples in closed form -/

theorem copyOut_eq {T : Type} (conv : T → StereoOut32 → T) (buf : Int → StereoOut32)
    (rpos size m : Int) (bData : Int → T) (j : Int)
    (hr0 : 0 ≤ rpos) (hr1 : rpos < size) (hm0 : 0 ≤ m) (hm1 : m ≤ size) :
    SndBuffer.convertLoop conv buf 0
        (if size - rpos > m then m else size - rpos)
        (m - if size - rpos > m then m else size - rpos).toNat
        (SndBuffer.convertLoop conv buf rpos 0
          (if size - rpos > m then m else size - rpos).toNat bData) j =
      if 0 ≤ j ∧ j < m then conv (bData j) (buf ((rpos + j) % size)) else bData j := by
  rw [convertLoop_eq, convertLoop_eq]
  by_cases hb : size - rpos > m
  · simp only [if_pos hb, sub_self, Int.toNat_zero, Nat.cast_zero, add_zero]
    rw [if_neg (by omega), Int.toNat_of_nonneg hm0]
    by_cases c : 0 ≤ j ∧ j < m
    · rw [if_pos (by omega), if_pos c, Int.emod_eq_of_lt (by omega) (by omega)]
      congr 2
      omega
    · rw [if_neg (by omega), if_neg c]
  · simp only [if_neg hb]
    rw [Int.toNat_of_nonneg (by omega), Int.toNat_of_nonneg (by omega)]
    by_cases c2 : size - rpos ≤ j ∧ j < m
    · rw [if_pos (by omega), if_neg (by omega), if_pos (by omega)]
      congr 2
      have e : rpos + j = (j - (size - rpos) + 0) + 1 * size := by ring
      rw [e, Int.add_mul_emod_self, Int.emod_eq_of_lt (by omega) (by omega)]
    · rw [if_neg (by omega)]
      by_cases c1 : 0 ≤ j ∧ j < size - rpos
      · rw [if_pos (by omega), if_pos (by omega), Int.emod_eq_of_lt (by omega) (by omega)]
        congr 2
        omega
      · rw [if_neg (by omega), if_neg (by omega)]

theorem readSamples_out {T : Type} (ops : FrameOps T) (SndOutPacketSize SynchMode : Int)
    (avc : Bool) (s : SndBuffer) (bData : Int → T) (n j : Int)
    (hr0 : 0 ≤ s.m_rpos) (hr1 : s.m_rpos < s.m_size)
    (hm0 : 0 ≤ (SndBuffer.CheckUnderrunStatus SndOutPacketSize SynchMode s n).nSamples)
    (hm1 : (SndBuffer.CheckUnderrunStatus SndOutPacketSize SynchMode s n).nSamples ≤ s.m_size) :
    (SndBuffer.ReadSamples ops SndOutPacketSize SynchMode avc s bData n).2 j =
      if (SndBuffer.CheckUnderrunStatus SndOutPacketSize SynchMode s n).nSamples ≤ j ∧
          j < (SndBuffer.CheckUnderrunStatus SndOutPacketSize SynchMode s n).nSamples
            + (SndBuffer.CheckUnderrunStatus SndOutPacketSize SynchMode s n).quietSampleCount
      then ops.zero
      else if (SndBuffer.CheckUnderrunStatus SndOutPacketSize SynchMode s n).ret = true ∧ 0 ≤ j ∧
          j < (SndBuffer.CheckUnderrunStatus SndOutPacketSize SynchMode s n).nSamples
      then (if avc then ops.AdjustFrom else ops.ResampleFrom) (bData j)
        (s.m_buffer ((s.m_rpos + j) % s.m_size))
      else bData j := by
  obtain ⟨-, hbuf, hrp, hsz⟩ := checkUnderrun_frame SndOutPacketSize SynchMode s n
  unfold SndBuffer.ReadSamples
  simp only []
  generalize SndBuffer.CheckUnderrunStatus SndOutPacketSize SynchMode s n = st at *
  simp only [hbuf, hrp, hsz]
  generalize (if avc = true then ops.AdjustFrom else ops.ResampleFrom) = conv
  have hcopy := fun k => copyOut_eq conv s.m_buffer s.m_rpos s.m_size st.nSamples bData k
    hr0 hr1 hm0 hm1
  by_cases hq : st.quietSampleCount > 0
  · rw [if_pos hq]
    simp only [ptrAdd, memset]
    by_cases c : st.nSamples ≤ j ∧ j < st.nSamples + st.quietSampleCount
    · rw [if_pos (by omega), if_pos c]
    · rw [if_neg (by omega), if_neg c]
      have e : j + -st.nSamples + st.nSamples = j := by ring
      rw [e]
      cases hret : st.ret
      · simp
      · simp only [if_true, hcopy, true_and]
  · have c : ¬ (st.nSamples ≤ j ∧ j < st.nSamples + st.quietSampleCount) := by omega
    rw [if_neg hq, if_neg c]
    cases hret : st.ret
    · simp
    · simp only [if_true, hcopy, true_and]

theorem checkUnderrun_counts (SndOutPacketSize SynchMode : Int) (s : SndBuffer) (n : Int)
    (hd : 0 ≤ s._GetApproximateDataInBuffer) (hn : 0 ≤ n) :
    (SndBuffer.CheckUnderrunStatus SndOutPacketSize SynchMode s n).nSamples
      + (SndBuffer.CheckUnderrunStatus SndOutPacketSize SynchMode s n).quietSampleCount = n ∧
    0 ≤ (SndBuffer.CheckUnderrunStatus SndOutPacketSize SynchMode s n).nSamples ∧
    (SndBuffer.CheckUnderrunStatus SndOutPacketSize SynchMode s n).nSamples ≤ n ∧
    ((SndBuffer.CheckUnderrunStatus SndOutPacketSize SynchMode s n).ret = false →
      (SndBuffer.CheckUnderrunStatus SndOutPacketSize SynchMode s n).nSamples = 0) := by
  unfold SndBuffer.CheckUnderrunStatus
  simp only
  split_ifs <;> simp <;> omega

theorem occupancy_range (s : SndBuffer)
    (hr0 : 0 ≤ s.m_rpos) (hr1 : s.m_rpos < s.m_size)
    (hw0 : 0 ≤ s.m_wpos) (hw1 : s.m_wpos < s.m_size) :
    0 ≤ s._GetApproximateDataInBuffer ∧ s._GetApproximateDataInBuffer < s.m_size := by
  rw [occupancy_eq s (by omega) hr0 hr1 hw0 hw1]
  split <;> omega

/-! ## ReadSamples fills the requested frame -/

/-- C5: for cursors inside the ring, a request `0 ≤ n ≤ SndOutPacketSize ≤
m_size` and either strategy `conv` (`AdjustFrom` when `AdvancedVolumeControl`,
else `ResampleFrom`), with `served` and `quiet` the counts granted by
`CheckUnderrunStatus`: `served + quiet = n`, output frame `i < served` is
`conv` applied (to the caller's frame `i`) with ring slot
`(m_rpos + i) mod m_size`, output frame `served ≤ i < n` is all zero, and
`m_rpos` ends at `(m_rpos + served) mod m_size`. -/
theorem C5_read_frame {T : Type} (ops : FrameOps T) (SndOutPacketSize SynchMode : Int)
    (avc : Bool) (s : SndBuffer) (bData : Int → T) (n : Int)
    (hr0 : 0 ≤ s.m_rpos) (hr1 : s.m_rpos < s.m_size)
    (hw0 : 0 ≤ s.m_wpos) (hw1 : s.m_wpos < s.m_size)
    (hn0 : 0 ≤ n) (hn1 : n ≤ SndOutPacketSize) (hP : SndOutPacketSize ≤ s.m_size) :
    (SndBuffer.CheckUnderrunStatus SndOutPacketSize SynchMode s n).nSamples
      + (SndBuffer.CheckUnderrunStatus SndOutPacketSize SynchMode s n).quietSampleCount = n ∧
    (∀ i, 0 ≤ i → i < (SndBuffer.CheckUnderrunStatus SndOutPacketSize SynchMode s n).nSamples →
      (SndBuffer.ReadSamples ops SndOutPacketSize SynchMode avc s bData n).2 i =
        (if avc then ops.AdjustFrom else ops.ResampleFrom) (bData i)
          (s.m_buffer ((s.m_rpos + i) % s.m_size))) ∧
    (∀ i, (SndBuffer.CheckUnderrunStatus SndOutPacketSize SynchMode s n).nSamples ≤ i → i < n →
      (SndBuffer.ReadSamples ops SndOutPacketSize SynchMode avc s bData n).2 i = ops.zero) ∧
    (SndBuffer.ReadSamples ops SndOutPacketSize SynchMode avc s bData n).1.m_rpos =
      (s.m_rpos + (SndBuffer.CheckUnderrunStatus SndOutPacketSize SynchMode s n).nSamples)
        % s.m_size := by
  obtain ⟨hd0, -⟩ := occupancy_range s hr0 hr1 hw0 hw1
  obtain ⟨hsum, hm0, hm1, hret⟩ := checkUnderrun_counts SndOutPacketSize SynchMode s n hd0 hn0
  obtain ⟨-, -, hrp, hsz⟩ := checkUnderrun_frame SndOutPacketSize SynchMode s n
  have hout := fun j => readSamples_out ops SndOutPacketSize SynchMode avc s bData n j
    hr0 hr1 hm0 (by omega)
  have hstate := readSamples_state ops SndOutPacketSize SynchMode avc s bData n
  generalize SndBuffer.CheckUnderrunStatus SndOutPacketSize SynchMode s n = st at *
  refine ⟨hsum, ?_, ?_, ?_⟩
  · intro i hi0 hi1
    have hr : st.ret = true := by
      cases h : st.ret
      · have := hret h
        omega
      · rfl
    rw [hout, if_neg (by omega), if_pos ⟨hr, hi0, hi1⟩]
  · intro i hi0 hi1
    rw [hout, if_pos (by omega)]
  · rw [hstate]
    cases h : st.ret
    · have := hret h
      simp only [Bool.false_eq_true, if_false]
      rw [hrp, this, add_zero, Int.emod_eq_of_lt hr0 hr1]
    · simp only [if_true, SndBuffer._DropSamples_Internal]
      rw [hrp, hsz, Int.tmod_eq_emod (by omega) (by omega)]

/-- C5 at a ring of 64 slots holding 10 samples from slot 60 on and a request
of one packet of 16: 10 frames are converted and 6 are silent. -/
theorem C5_read_frame_witness :
    (SndBuffer.CheckUnderrunStatus 16 2 (rampRing 64 60 6 false) 16).nSamples = 10 ∧
    (SndBuffer.CheckUnderrunStatus 16 2 (rampRing 64 60 6 false) 16).quietSampleCount = 6 ∧
    (SndBuffer.ReadSamples rawFrame 16 2 true (rampRing 64 60 6 false) (ramp 5) 16).2 9
      = ramp 100 5 ∧
    (SndBuffer.ReadSamples rawFrame 16 2 true (rampRing 64 60 6 false) (ramp 5) 16).2 10
      = StereoOut32.Empty ∧
    (SndBuffer.ReadSamples rawFrame 16 2 true (rampRing 64 60 6 false) (ramp 5) 16).1.m_rpos
      = 6 :=
  have h := C5_read_frame rawFrame 16 2 true (rampRing 64 60 6 false) (ramp 5) 16
    (by decide) (by decide) (by decide) (by decide) (by decide) (by decide) (by decide)
  ⟨by decide, by decide, h.2.1 9 (by decide) (by decide), h.2.2.1 10 (by decide) (by decide),
    h.2.2.2⟩

/-! ## Underrun freeze and exit -/

theorem readSamples_refused {T : Type} (ops : FrameOps T) (SndOutPacketSize SynchMode : Int)
    (avc : Bool) (s : SndBuffer) (bData : Int → T) (n j : Int)
    (hret : (SndBuffer.CheckUnderrunStatus SndOutPacketSize SynchMode s n).ret = false) :
    (SndBuffer.ReadSamples ops SndOutPacketSize SynchMode avc s bData n).2 j =
      if (SndBuffer.CheckUnderrunStatus SndOutPacketSize SynchMode s n).nSamples ≤ j ∧
          j < (SndBuffer.CheckUnderrunStatus SndOutPacketSize SynchMode s n).nSamples
            + (SndBuffer.CheckUnderrunStatus SndOutPacketSize SynchMode s n).quietSampleCount
      then ops.zero else bData j := by
  unfold SndBuffer.ReadSamples
  simp only []
  generalize SndBuffer.CheckUnderrunStatus SndOutPacketSize SynchMode s n = st at *
  simp only [hret, Bool.false_eq_true, if_false]
  by_cases hq : st.quietSampleCount > 0
  · rw [if_pos hq]
    simp only [ptrAdd, memset]
    by_cases c : st.nSamples ≤ j ∧ j < st.nSamples + st.quietSampleCount
    · rw [if_pos (by omega), if_pos c]
    · rw [if_neg (by omega), if_neg c]
      congr 1
      ring
  · have c : ¬ (st.nSamples ≤ j ∧ j < st.nSamples + st.quietSampleCount) := by omega
    rw [if_neg hq, if_neg c]

theorem checkUnderrun_frozen_low (SndOutPacketSize SynchMode : Int) (s : SndBuffer) (n : Int)
    (hfrozen : s.m_underrun_freeze = true)
    (hlow : s._GetApproximateDataInBuffer <
      GetAlignedBufferSize SndOutPacketSize (Int.tdiv s.m_size (if SynchMode = 2 then 32 else 400))) :
    SndBuffer.CheckUnderrunStatus SndOutPacketSize SynchMode s n =
      { state := s, nSamples := 0, quietSampleCount := n, ret := false } := by
  unfold SndBuffer.CheckUnderrunStatus
  simp only [hfrozen, if_true, if_pos hlow]

theorem checkUnderrun_frozen_high (SndOutPacketSize SynchMode : Int) (s : SndBuffer) (n : Int)
    (hfrozen : s.m_underrun_freeze = true)
    (hhigh : GetAlignedBufferSize SndOutPacketSize
      (Int.tdiv s.m_size (if SynchMode = 2 then 32 else 400)) ≤ s._GetApproximateDataInBuffer) :
    SndBuffer.CheckUnderrunStatus SndOutPacketSize SynchMode s n =
      { state := { s with m_underrun_freeze := false, lastPct := 0 },
        nSamples := n, quietSampleCount := 0, ret := true } := by
  unfold SndBuffer.CheckUnderrunStatus
  simp only [hfrozen, if_true, if_neg (not_lt.mpr hhigh)]

theorem checkUnderrun_empty (SndOutPacketSize SynchMode : Int) (s : SndBuffer) (n : Int)
    (hnormal : s.m_underrun_freeze = false) (hempty : s.m_wpos = s.m_rpos) (hn : 0 < n) :
    (SndBuffer.CheckUnderrunStatus SndOutPacketSize SynchMode s n).nSamples = 0 ∧
    (SndBuffer.CheckUnderrunStatus SndOutPacketSize SynchMode s n).quietSampleCount = n ∧
    (SndBuffer.CheckUnderrunStatus SndOutPacketSize SynchMode s n).ret = false ∧
    (SndBuffer.CheckUnderrunStatus SndOutPacketSize SynchMode s n).state.m_underrun_freeze
      = true := by
  have hd : s._GetApproximateDataInBuffer = 0 := by
    unfold SndBuffer._GetApproximateDataInBuffer
    have e : s.m_wpos + s.m_size - s.m_rpos = s.m_size := by rw [hempty]; ring
    rw [e, Int.tmod_self]
  unfold SndBuffer.CheckUnderrunStatus
  simp only [hnormal, Bool.false_eq_true, if_false, hd, if_pos hn]
  refine ⟨trivial, by omega, by simp, ?_⟩
  split <;> rfl

/-- C4: with `T = GetAlignedBufferSize(m_size / D)`, `D` being 32 for
`SynchMode == 2` and 400 otherwise, in a frozen state `s` a read of `N > 0`
samples made while occupancy `< T` grants 0 samples, returns `N` all-zero
frames and leaves `m_rpos` and the frozen flag as they are; a read made while
occupancy `≥ T` clears the flag, grants `N` samples with no silence and
returns `N` frames converted from the ring at `m_rpos`.  From an empty ring
`s0` that is not frozen, a read of one packet returns only all-zero frames and
freezes; producer writes never change the flag, so the frozen clauses describe
every later read. -/
theorem C4_underrun_freeze_exit {T : Type} (ops : FrameOps T)
    (SndOutPacketSize SynchMode : Int) (avc : Bool) (s s0 : SndBuffer) (bData : Int → T)
    (wData : Int → StereoOut32) (N k : Int)
    (hfrozen : s.m_underrun_freeze = true) (hN : 0 < N)
    (hnormal : s0.m_underrun_freeze = false) (hempty : s0.m_wpos = s0.m_rpos)
    (hP : 0 < SndOutPacketSize) :
    (s._GetApproximateDataInBuffer <
        GetAlignedBufferSize SndOutPacketSize
          (Int.tdiv s.m_size (if SynchMode = 2 then 32 else 400)) →
      (SndBuffer.CheckUnderrunStatus SndOutPacketSize SynchMode s N).nSamples = 0 ∧
      (SndBuffer.CheckUnderrunStatus SndOutPacketSize SynchMode s N).quietSampleCount = N ∧
      (∀ i, 0 ≤ i → i < N →
        (SndBuffer.ReadSamples ops SndOutPacketSize SynchMode avc s bData N).2 i = ops.zero) ∧
      (SndBuffer.ReadSamples ops SndOutPacketSize SynchMode avc s bData N).1.m_rpos = s.m_rpos ∧
      (SndBuffer.ReadSamples ops SndOutPacketSize SynchMode avc s bData N).1.m_underrun_freeze
        = true) ∧
    (GetAlignedBufferSize SndOutPacketSize
          (Int.tdiv s.m_size (if SynchMode = 2 then 32 else 400))
        ≤ s._GetApproximateDataInBuffer →
      (SndBuffer.CheckUnderrunStatus SndOutPacketSize SynchMode s N).nSamples = N ∧
      (SndBuffer.CheckUnderrunStatus SndOutPacketSize SynchMode s N).quietSampleCount = 0 ∧
      (SndBuffer.ReadSamples ops SndOutPacketSize SynchMode avc s bData N).1.m_underrun_freeze
        = false ∧
      (SndBuffer.ReadSamples ops SndOutPacketSize SynchMode avc s bData N).1.m_rpos
        = Int.tmod (s.m_rpos + N) s.m_size ∧
      (0 ≤ s.m_rpos → s.m_rpos < s.m_size → N ≤ s.m_size → ∀ i, 0 ≤ i → i < N →
        (SndBuffer.ReadSamples ops SndOutPacketSize SynchMode avc s bData N).2 i =
          (if avc then ops.AdjustFrom else ops.ResampleFrom) (bData i)
            (s.m_buffer ((s.m_rpos + i) % s.m_size)))) ∧
    ((∀ i, 0 ≤ i → i < SndOutPacketSize →
        (SndBuffer.ReadSamples ops SndOutPacketSize SynchMode avc s0 bData SndOutPacketSize).2 i
          = ops.zero) ∧
      (SndBuffer.ReadSamples ops SndOutPacketSize SynchMode avc s0 bData
        SndOutPacketSize).1.m_underrun_freeze = true ∧
      (SndBuffer.ReadSamples ops SndOutPacketSize SynchMode avc s0 bData
        SndOutPacketSize).1.m_rpos = s0.m_rpos) ∧
    (s._WriteSamples wData k).m_underrun_freeze = s.m_underrun_freeze := by
  refine ⟨?_, ?_, ?_, ?_⟩
  · intro hlow
    have hst := checkUnderrun_frozen_low SndOutPacketSize SynchMode s N hfrozen hlow
    have hout := fun j => readSamples_refused ops SndOutPacketSize SynchMode avc s bData N j
      (by rw [hst])
    have hstate := readSamples_state ops SndOutPacketSize SynchMode avc s bData N
    rw [hst] at hout hstate
    simp only [Bool.false_eq_true, if_false] at hstate
    refine ⟨by rw [hst], by rw [hst], ?_, by rw [hstate], by rw [hstate]; exact hfrozen⟩
    intro i hi0 hi1
    rw [hout, if_pos (by constructor <;> simp only [] <;> omega)]
  · intro hhigh
    have hst := checkUnderrun_frozen_high SndOutPacketSize SynchMode s N hfrozen hhigh
    have hstate := readSamples_state ops SndOutPacketSize SynchMode avc s bData N
    rw [hst] at hstate
    simp only [if_true] at hstate
    refine ⟨by rw [hst], by rw [hst], by rw [hstate]; rfl, by rw [hstate]; rfl, ?_⟩
    intro hr0 hr1 hN1 i hi0 hi1
    have hout := readSamples_out ops SndOutPacketSize SynchMode avc s bData N i hr0 hr1
      (by rw [hst]; exact le_of_lt hN) (by rw [hst]; exact hN1)
    rw [hst] at hout
    rw [hout, if_neg (by simp only []; omega), if_pos ⟨rfl, hi0, hi1⟩]
  · obtain ⟨h1, h2, h3, h4⟩ :=
      checkUnderrun_empty SndOutPacketSize SynchMode s0 SndOutPacketSize hnormal hempty hP
    obtain ⟨-, -, hrp, -⟩ := checkUnderrun_frame SndOutPacketSize SynchMode s0 SndOutPacketSize
    have hout := fun j => readSamples_refused ops SndOutPacketSize SynchMode avc s0 bData
      SndOutPacketSize j h3
    have hstate := readSamples_state ops SndOutPacketSize SynchMode avc s0 bData SndOutPacketSize
    rw [h3] at hstate
    simp only [Bool.false_eq_true, if_false] at hstate
    refine ⟨?_, by rw [hstate]; exact h4, by rw [hstate]; exact hrp⟩
    intro i hi0 hi1
    rw [hout, if_pos (by omega)]
  · unfold SndBuffer._WriteSamples
    simp only
    split
    · rfl
    · exact (SndBuffer.writeSafe_frame _ wData k).2.2

/-- C4 at a ring of 1024 slots, packets of 16 and `SynchMode == 2`
(threshold 32): frozen with 48 samples buffered, a read of one packet leaves
the frozen state and returns ring slots; from the empty ring the read returns
silence and freezes. -/
theorem C4_underrun_freeze_exit_witness :
    (rampRing 1024 1020 44 true).m_underrun_freeze = true ∧
    GetAlignedBufferSize 16 (Int.tdiv 1024 32) = 32 ∧
    (rampRing 1024 1020 44 true)._GetApproximateDataInBuffer = 48 ∧
    (SndBuffer.ReadSamples rawFrame 16 2 false (rampRing 1024 1020 44 true) (ramp 0)
      16).1.m_underrun_freeze = false ∧
    (SndBuffer.ReadSamples rawFrame 16 2 false (rampRing 1024 1020 44 true) (ramp 0) 16).2 7
      = ramp 100 3 ∧
    (SndBuffer.ReadSamples rawFrame 16 2 false (rampRing 1024 5 5 false) (ramp 0)
      16).1.m_underrun_freeze = true :=
  have h := C4_underrun_freeze_exit rawFrame 16 2 false (rampRing 1024 1020 44 true)
    (rampRing 1024 5 5 false) (ramp 0) (ramp 0) 16 16 rfl (by decide) rfl rfl (by decide)
  ⟨rfl, by decide, by decide, (h.2.1 (by decide)).2.2.1,
    (h.2.1 (by decide)).2.2.2.2 (by decide) (by decide) (by decide) 7 (by decide) (by decide),
    h.2.2.1.2.1⟩

/-! ## Occupancy invariant -/

theorem applyOp_cursors {T : Type} (ops : FrameOps T) (SndOutPacketSize SynchMode : Int)
    (avc : Bool) (s : SndBuffer) (op : SndBuffer.Op T)
    (hr0 : 0 ≤ s.m_rpos) (hr1 : s.m_rpos < s.m_size)
    (hw0 : 0 ≤ s.m_wpos) (hw1 : s.m_wpos < s.m_size) :
    (SndBuffer.applyOp ops SndOutPacketSize SynchMode avc s op).m_size = s.m_size ∧
    0 ≤ (SndBuffer.applyOp ops SndOutPacketSize SynchMode avc s op).m_rpos ∧
    (SndBuffer.applyOp ops SndOutPacketSize SynchMode avc s op).m_rpos < s.m_size ∧
    0 ≤ (SndBuffer.applyOp ops SndOutPacketSize SynchMode avc s op).m_wpos ∧
    (SndBuffer.applyOp ops SndOutPacketSize SynchMode avc s op).m_wpos < s.m_size := by
  have hs : 0 < s.m_size := by omega
  have hsafe : ∀ (t : SndBuffer) (d : Int → StereoOut32) (n : Nat),
      t.m_size = s.m_size → t.m_rpos = s.m_rpos → t.m_wpos = s.m_wpos →
      (t._WriteSamples_Safe d n).m_size = s.m_size ∧
      0 ≤ (t._WriteSamples_Safe d n).m_rpos ∧ (t._WriteSamples_Safe d n).m_rpos < s.m_size ∧
      0 ≤ (t._WriteSamples_Safe d n).m_wpos ∧ (t._WriteSamples_Safe d n).m_wpos < s.m_size := by
    intro t d n e1 e2 e3
    obtain ⟨f1, f2, -⟩ := SndBuffer.writeSafe_frame t d n
    have f3 := SndBuffer.writeSafe_wpos t d n (by omega) (by omega) (Int.ofNat_nonneg n)
    rw [f1, f2, f3, e1, e2]
    exact ⟨rfl, hr0, hr1, Int.emod_nonneg _ (by omega), Int.emod_lt_of_pos _ hs⟩
  cases op with
  | WriteSamples d n =>
    simp only [SndBuffer.applyOp]
    unfold SndBuffer._WriteSamples
    simp only
    split
    · exact ⟨rfl, hr0, hr1, hw0, hw1⟩
    · exact hsafe _ d n rfl rfl rfl
  | WriteSamples_Safe d n =>
    simp only [SndBuffer.applyOp]
    exact hsafe s d n rfl rfl rfl
  | ReadSamples out n =>
    simp only [SndBuffer.applyOp]
    obtain ⟨hd0, -⟩ := occupancy_range s hr0 hr1 hw0 hw1
    obtain ⟨-, hm0, -, -⟩ :=
      checkUnderrun_counts SndOutPacketSize SynchMode s n hd0 (Int.ofNat_nonneg n)
    obtain ⟨hwp, -, hrp, hsz⟩ := checkUnderrun_frame SndOutPacketSize SynchMode s n
    rw [readSamples_state]
    generalize SndBuffer.CheckUnderrunStatus SndOutPacketSize SynchMode s n = st at *
    split
    · simp only [SndBuffer._DropSamples_Internal]
      rw [hwp, hrp, hsz]
      have := tmod_range (s.m_rpos + st.nSamples) s.m_size (by omega) hs
      exact ⟨rfl, this.1, this.2, hw0, hw1⟩
    · rw [hwp, hrp, hsz]
      exact ⟨rfl, hr0, hr1, hw0, hw1⟩
  | ReadSamples_Safe out n =>
    simp only [SndBuffer.applyOp]
    obtain ⟨f1, f2, -, -⟩ := SndBuffer.readSafe_state s out n
    have f3 := SndBuffer.readSafe_rpos s out n hr0 hr1 (Int.ofNat_nonneg n)
    rw [f1, f2, f3]
    exact ⟨rfl, Int.emod_nonneg _ (by omega), Int.emod_lt_of_pos _ hs, hw0, hw1⟩
  | DropSamples_Internal n =>
    simp only [SndBuffer.applyOp, SndBuffer._DropSamples_Internal]
    have := tmod_range (s.m_rpos + n) s.m_size (by omega) hs
    exact ⟨trivial, this.1, this.2, hw0, hw1⟩

theorem runOps_cursors {T : Type} (ops : FrameOps T) (SndOutPacketSize SynchMode : Int)
    (avc : Bool) (calls : List (SndBuffer.Op T)) (s : SndBuffer)
    (hr0 : 0 ≤ s.m_rpos) (hr1 : s.m_rpos < s.m_size)
    (hw0 : 0 ≤ s.m_wpos) (hw1 : s.m_wpos < s.m_size) :
    (SndBuffer.runOps ops SndOutPacketSize SynchMode avc s calls).m_size = s.m_size ∧
    0 ≤ (SndBuffer.runOps ops SndOutPacketSize SynchMode avc s calls).m_rpos ∧
    (SndBuffer.runOps ops SndOutPacketSize SynchMode avc s calls).m_rpos < s.m_size ∧
    0 ≤ (SndBuffer.runOps ops SndOutPacketSize SynchMode avc s calls).m_wpos ∧
    (SndBuffer.runOps ops SndOutPacketSize SynchMode avc s calls).m_wpos < s.m_size := by
  induction calls generalizing s with
  | nil => exact ⟨rfl, hr0, hr1, hw0, hw1⟩
  | cons op rest ih =>
    simp only [SndBuffer.runOps]
    obtain ⟨h1, h2, h3, h4, h5⟩ :=
      applyOp_cursors ops SndOutPacketSize SynchMode avc s op hr0 hr1 hw0 hw1
    have := ih (SndBuffer.applyOp ops SndOutPacketSize SynchMode avc s op) h2 (by omega) h4
      (by omega)
    rw [h1] at this
    exact this

theorem runOps_invariant {T : Type} (ops : FrameOps T)
    (SndOutPacketSize SynchMode : Int) (avc : Bool) (s0 : SndBuffer)
    (calls : List (SndBuffer.Op T))
    (hsize : 0 < s0.m_size) (hr : s0.m_rpos = 0) (hw : s0.m_wpos = 0) :
    (SndBuffer.runOps ops SndOutPacketSize SynchMode avc s0 calls).m_size = s0.m_size ∧
    (0 ≤ (SndBuffer.runOps ops SndOutPacketSize SynchMode avc s0 calls).m_rpos ∧
      (SndBuffer.runOps ops SndOutPacketSize SynchMode avc s0 calls).m_rpos < s0.m_size) ∧
    (0 ≤ (SndBuffer.runOps ops SndOutPacketSize SynchMode avc s0 calls).m_wpos ∧
      (SndBuffer.runOps ops SndOutPacketSize SynchMode avc s0 calls).m_wpos < s0.m_size) ∧
    (SndBuffer.runOps ops SndOutPacketSize SynchMode avc s0 calls)._GetApproximateDataInBuffer =
      ((SndBuffer.runOps ops SndOutPacketSize SynchMode avc s0 calls).m_wpos
        - (SndBuffer.runOps ops SndOutPacketSize SynchMode avc s0 calls).m_rpos + s0.m_size)
        % s0.m_size ∧
    0 ≤ (SndBuffer.runOps ops SndOutPacketSize SynchMode avc s0 calls)._GetApproximateDataInBuffer ∧
    (SndBuffer.runOps ops SndOutPacketSize SynchMode avc s0 calls)._GetApproximateDataInBuffer
      < s0.m_size := by
  obtain ⟨h1, h2, h3, h4, h5⟩ := runOps_cursors ops SndOutPacketSize SynchMode avc calls s0
    (by omega) (by omega) (by omega) (by omega)
  generalize SndBuffer.runOps ops SndOutPacketSize SynchMode avc s0 calls = s at *
  have hocc := occupancy_range s h2 (by omega) h4 (by omega)
  refine ⟨h1, ⟨h2, h3⟩, ⟨h4, h5⟩, ?_, hocc.1, by omega⟩
  unfold SndBuffer._GetApproximateDataInBuffer
  rw [h1, Int.tmod_eq_emod (by omega) (by omega)]
  congr 1
  ring

/-! ## The overrun scenario -/

theorem occupancy_linear (s : SndBuffer) (c r w : Int)
    (hs : s.m_size = c) (hr : s.m_rpos = r) (hw : s.m_wpos = w)
    (h0 : 0 ≤ r) (h1 : r ≤ w) (h2 : w < c) :
    s._GetApproximateDataInBuffer = w - r := by
  rw [occupancy_eq s (by omega) (by omega) (by omega) (by omega) (by omega), hr, hw,
    if_pos h1]

theorem write_linear (s : SndBuffer) (d : Int → StereoOut32) (c r w n : Int)
    (hs : s.m_size = c) (hr : s.m_rpos = r) (hw : s.m_wpos = w)
    (h0 : 0 ≤ r) (h1 : r ≤ w) (hn : 0 ≤ n) (h2 : w + n < c) :
    (s._WriteSamples d n).m_size = c ∧ (s._WriteSamples d n).m_rpos = r ∧
    (s._WriteSamples d n).m_wpos = w + n ∧
    (s._WriteSamples d n).m_underrun_freeze = s.m_underrun_freeze ∧
    ∀ j, (s._WriteSamples d n).m_buffer j =
      if w ≤ j ∧ j < w + n then d (j - w) else s.m_buffer j := by
  have hocc := occupancy_linear s c r w hs hr hw h0 h1 (by omega)
  have hacc : s._WriteSamples d n =
      ({ s with m_predictData := 0 } : SndBuffer)._WriteSamples_Internal d n := by
    unfold SndBuffer._WriteSamples SndBuffer._WriteSamples_Safe
    simp only [SndBuffer._GetApproximateDataInBuffer] at hocc ⊢
    rw [hocc, hs, hw, if_neg (by omega), if_neg (by omega)]
  rw [hacc]
  refine ⟨hs, hr, ?_, rfl, ?_⟩
  · simp only [SndBuffer._WriteSamples_Internal]
    rw [hw, hs, Int.tmod_eq_emod (by omega) (by omega), Int.emod_eq_of_lt (by omega) h2]
  · intro j
    rw [SndBuffer.writeInternal_buffer]
    simp only [hw]

theorem write_refused (s : SndBuffer) (d : Int → StereoOut32) (c r w n : Int)
    (hs : s.m_size = c) (hr : s.m_rpos = r) (hw : s.m_wpos = w)
    (h0 : 0 ≤ r) (h1 : r ≤ w) (h2 : w < c) (hfull : c - (w - r) ≤ n) :
    (s._WriteSamples d n).m_size = c ∧ (s._WriteSamples d n).m_rpos = r ∧
    (s._WriteSamples d n).m_wpos = w ∧
    (s._WriteSamples d n).m_underrun_freeze = s.m_underrun_freeze ∧
    (s._WriteSamples d n).m_buffer = s.m_buffer := by
  have hocc := occupancy_linear s c r w hs hr hw h0 h1 h2
  have hrej : s._WriteSamples d n = { s with m_predictData := 0, lastPct := 0 } := by
    unfold SndBuffer._WriteSamples
    simp only [SndBuffer._GetApproximateDataInBuffer] at hocc ⊢
    rw [hocc, hs, if_pos hfull]
  rw [hrej]
  exact ⟨hs, hr, hw, rfl, rfl⟩

theorem read_linear {T : Type} (ops : FrameOps T) (SndOutPacketSize SynchMode : Int)
    (avc : Bool) (s : SndBuffer) (out : Int → T) (c r w n : Int)
    (hs : s.m_size = c) (hr : s.m_rpos = r) (hw : s.m_wpos = w)
    (hf : s.m_underrun_freeze = false)
    (h0 : 0 ≤ r) (hn : 0 ≤ n) (h1 : r + n ≤ w) (h2 : w < c) :
    (SndBuffer.ReadSamples ops SndOutPacketSize SynchMode avc s out n).1.m_size = c ∧
    (SndBuffer.ReadSamples ops SndOutPacketSize SynchMode avc s out n).1.m_rpos = r + n ∧
    (SndBuffer.ReadSamples ops SndOutPacketSize SynchMode avc s out n).1.m_wpos = w ∧
    (SndBuffer.ReadSamples ops SndOutPacketSize SynchMode avc s out n).1.m_underrun_freeze
      = false ∧
    (SndBuffer.ReadSamples ops SndOutPacketSize SynchMode avc s out n).1.m_buffer
      = s.m_buffer ∧
    ∀ j, 0 ≤ j → j < n →
      (SndBuffer.ReadSamples ops SndOutPacketSize SynchMode avc s out n).2 j =
        (if avc then ops.AdjustFrom else ops.ResampleFrom) (out j) (s.m_buffer (r + j)) := by
  have hocc := occupancy_linear s c r w hs hr hw h0 (by omega) h2
  have hst : SndBuffer.CheckUnderrunStatus SndOutPacketSize SynchMode s n =
      { state := s, nSamples := n, quietSampleCount := 0, ret := true } := by
    unfold SndBuffer.CheckUnderrunStatus
    simp only [hf, Bool.false_eq_true, if_false]
    rw [if_neg (by omega)]
  have hstate := readSamples_state ops SndOutPacketSize SynchMode avc s out n
  rw [hst] at hstate
  simp only [if_true] at hstate
  rw [hstate]
  refine ⟨hs, ?_, hw, hf, rfl, ?_⟩
  · simp only [SndBuffer._DropSamples_Internal]
    rw [hr, hs, Int.tmod_eq_emod (by omega) (by omega), Int.emod_eq_of_lt (by omega) (by omega)]
  · intro j hj0 hj1
    have hout := readSamples_out ops SndOutPacketSize SynchMode avc s out n j
      (by omega) (by omega) (by rw [hst]; exact hn) (by rw [hst]; simp only []; omega)
    rw [hst] at hout
    rw [hout, if_neg (by simp only []; omega), if_pos ⟨rfl, hj0, hj1⟩, hr, hs,
      Int.emod_eq_of_lt (by omega) (by omega)]

theorem samples_eq_convertAll {T : Type} (conv : T → StereoOut32 → T) (res out : Int → T)
    (src : Int → StereoOut32) (n : Nat)
    (h : ∀ j : Int, 0 ≤ j → j < n → res j = conv (out j) (src j)) :
    samples res n = convertAll conv out src n := by
  unfold samples convertAll
  apply List.map_congr_left
  intro i hi
  rw [List.mem_range] at hi
  exact h i (by omega) (by omega)

theorem scenario_writes (buf0 p1 p2 p3 p4 p5 : Int → StereoOut32) :
    (SndBuffer.writePackets 16 (scenarioRing buf0) [p1, p2, p3, p4, p5]).m_size = 64 ∧
    (SndBuffer.writePackets 16 (scenarioRing buf0) [p1, p2, p3, p4, p5]).m_rpos = 0 ∧
    (SndBuffer.writePackets 16 (scenarioRing buf0) [p1, p2, p3, p4, p5]).m_wpos = 48 ∧
    (SndBuffer.writePackets 16 (scenarioRing buf0) [p1, p2, p3, p4, p5]).m_underrun_freeze
      = false ∧
    (SndBuffer.writePackets 16 (scenarioRing buf0) [p1, p2, p3, p4, p5]).m_buffer =
      (SndBuffer.writePackets 16 (scenarioRing buf0) [p1, p2, p3]).m_buffer ∧
    ∀ j, 0 ≤ j → j < 16 →
      (SndBuffer.writePackets 16 (scenarioRing buf0) [p1, p2, p3]).m_buffer j = p1 j ∧
      (SndBuffer.writePackets 16 (scenarioRing buf0) [p1, p2, p3]).m_buffer (16 + j) = p2 j ∧
      (SndBuffer.writePackets 16 (scenarioRing buf0) [p1, p2, p3]).m_buffer (32 + j) = p3 j := by
  simp only [SndBuffer.writePackets, Nat.cast_ofNat]
  obtain ⟨a1, a2, a3, a4, a5⟩ := write_linear (scenarioRing buf0) p1 64 0 0 16 rfl rfl rfl
    (by omega) (by omega) (by omega) (by omega)
  generalize (scenarioRing buf0)._WriteSamples p1 16 = s1 at *
  obtain ⟨b1, b2, b3, b4, b5⟩ := write_linear s1 p2 64 0 16 16 a1 a2 (by omega)
    (by omega) (by omega) (by omega) (by omega)
  generalize s1._WriteSamples p2 16 = s2 at *
  obtain ⟨c1, c2, c3, c4, c5⟩ := write_linear s2 p3 64 0 32 16 b1 b2 (by omega)
    (by omega) (by omega) (by omega) (by omega)
  generalize s2._WriteSamples p3 16 = s3 at *
  obtain ⟨d1, d2, d3, d4, d5⟩ := write_refused s3 p4 64 0 48 16 c1 c2 (by omega)
    (by omega) (by omega) (by omega) (by omega)
  generalize s3._WriteSamples p4 16 = s4 at *
  obtain ⟨e1, e2, e3, e4, e5⟩ := write_refused s4 p5 64 0 48 16 d1 d2 d3
    (by omega) (by omega) (by omega) (by omega)
  generalize s4._WriteSamples p5 16 = s5 at *
  refine ⟨e1, e2, e3, ?_, by rw [e5, d5], ?_⟩
  · rw [e4, d4, c4, b4, a4]
    rfl
  · intro j hj0 hj1
    refine ⟨?_, ?_, ?_⟩
    · rw [c5, if_neg (by omega), b5, if_neg (by omega), a5, if_pos (by omega)]
      congr 1
      omega
    · rw [c5, if_neg (by omega), b5, if_pos (by omega)]
      congr 1
      omega
    · rw [c5, if_pos (by omega)]
      congr 1
      omega

/-- C7, amended: on a ring of 64 slots (4 packets of 16 samples) that is empty,
five back-to-back `_WriteSamples` calls of one 16-sample packet each commit
the first three packets and refuse the fourth and the fifth (the ring keeps
one slot free, so 48 samples are buffered); three subsequent reads of one
packet each then return only converted ring data, in the original write
order, and leave the ring empty with occupancy 0. -/
theorem C7_overrun_scenario {T : Type} (ops : FrameOps T) (SynchMode : Int) (avc : Bool)
    (buf0 p1 p2 p3 p4 p5 : Int → StereoOut32) (o1 o2 o3 : Int → T) :
    (SndBuffer.writePackets 16 (scenarioRing buf0)
      [p1, p2, p3, p4, p5])._GetApproximateDataInBuffer = 48 ∧
    ((SndBuffer.writePackets 16 (scenarioRing buf0) [p1, p2, p3, p4, p5]).m_wpos =
        (SndBuffer.writePackets 16 (scenarioRing buf0) [p1, p2, p3]).m_wpos ∧
      (SndBuffer.writePackets 16 (scenarioRing buf0) [p1, p2, p3, p4, p5]).m_buffer =
        (SndBuffer.writePackets 16 (scenarioRing buf0) [p1, p2, p3]).m_buffer) ∧
    (∀ j, 0 ≤ j → j < 16 →
      (SndBuffer.writePackets 16 (scenarioRing buf0) [p1, p2, p3, p4, p5]).m_buffer j = p1 j ∧
      (SndBuffer.writePackets 16 (scenarioRing buf0) [p1, p2, p3, p4, p5]).m_buffer (16 + j)
        = p2 j ∧
      (SndBuffer.writePackets 16 (scenarioRing buf0) [p1, p2, p3, p4, p5]).m_buffer (32 + j)
        = p3 j) ∧
    (SndBuffer.readPackets ops 16 SynchMode avc 16
      (SndBuffer.writePackets 16 (scenarioRing buf0) [p1, p2, p3, p4, p5]) [o1, o2, o3]).2 =
      convertAll (if avc then ops.AdjustFrom else ops.ResampleFrom) o1 p1 16
        ++ convertAll (if avc then ops.AdjustFrom else ops.ResampleFrom) o2 p2 16
        ++ convertAll (if avc then ops.AdjustFrom else ops.ResampleFrom) o3 p3 16 ∧
    (SndBuffer.readPackets ops 16 SynchMode avc 16
      (SndBuffer.writePackets 16 (scenarioRing buf0) [p1, p2, p3, p4, p5])
      [o1, o2, o3]).1._GetApproximateDataInBuffer = 0 := by
  obtain ⟨h1, h2, h3, h4, h5, h6⟩ := scenario_writes buf0 p1 p2 p3 p4 p5
  have hw3 : (SndBuffer.writePackets 16 (scenarioRing buf0) [p1, p2, p3]).m_wpos = 48 := by
    obtain ⟨a1, a2, a3, -, -⟩ := write_linear (scenarioRing buf0) p1 64 0 0 16 rfl rfl rfl
      (by omega) (by omega) (by omega) (by omega)
    obtain ⟨b1, b2, b3, -, -⟩ := write_linear _ p2 64 0 16 16 a1 a2 (by omega)
      (by omega) (by omega) (by omega) (by omega)
    obtain ⟨-, -, c3, -, -⟩ := write_linear _ p3 64 0 32 16 b1 b2 (by omega)
      (by omega) (by omega) (by omega) (by omega)
    simp only [SndBuffer.writePackets, Nat.cast_ofNat]
    omega
  rw [← h5] at h6
  generalize SndBuffer.writePackets 16 (scenarioRing buf0) [p1, p2, p3] = s3 at *
  generalize SndBuffer.writePackets 16 (scenarioRing buf0) [p1, p2, p3, p4, p5] = s5 at *
  refine ⟨occupancy_linear s5 64 0 48 h1 h2 h3 (by omega) (by omega) (by omega),
    ⟨by omega, h5⟩, h6, ?_, ?_⟩
  all_goals simp only [SndBuffer.readPackets, Nat.cast_ofNat, List.append_nil]
  all_goals
    obtain ⟨a1, a2, a3, a4, a5, a6⟩ := read_linear ops 16 SynchMode avc s5 o1 64 0 48 16
      h1 h2 h3 h4 (by omega) (by omega) (by omega) (by omega)
    generalize SndBuffer.ReadSamples ops 16 SynchMode avc s5 o1 16 = r1 at *
    obtain ⟨b1, b2, b3, b4, b5, b6⟩ := read_linear ops 16 SynchMode avc r1.1 o2 64 16 48 16
      a1 (by omega) a3 a4 (by omega) (by omega) (by omega) (by omega)
    generalize SndBuffer.ReadSamples ops 16 SynchMode avc r1.1 o2 16 = r2 at *
    obtain ⟨c1, c2, c3, c4, c5, c6⟩ := read_linear ops 16 SynchMode avc r2.1 o3 64 32 48 16
      b1 (by omega) b3 b4 (by omega) (by omega) (by omega) (by omega)
    generalize SndBuffer.ReadSamples ops 16 SynchMode avc r2.1 o3 16 = r3 at *
  · have e1 : samples r1.2 16
        = convertAll (if avc then ops.AdjustFrom else ops.ResampleFrom) o1 p1 16 := by
      apply samples_eq_convertAll
      intro j hj0 hj1
      rw [a6 j hj0 (by omega), zero_add, (h6 j hj0 (by omega)).1]
    have e2 : samples r2.2 16
        = convertAll (if avc then ops.AdjustFrom else ops.ResampleFrom) o2 p2 16 := by
      apply samples_eq_convertAll
      intro j hj0 hj1
      rw [b6 j hj0 (by omega), a5, (h6 j hj0 (by omega)).2.1]
    have e3 : samples r3.2 16
        = convertAll (if avc then ops.AdjustFrom else ops.ResampleFrom) o3 p3 16 := by
      apply samples_eq_convertAll
      intro j hj0 hj1
      rw [c6 j hj0 (by omega), b5, a5, (h6 j hj0 (by omega)).2.2]
    rw [e1, e2, e3, List.append_assoc]
  · exact (occupancy_linear r3.1 64 48 48 c1 (by omega) c3 (by omega) (by omega)
      (by omega)).trans (by norm_num)

/-- C7 as stated fails: on a ring of 64 slots, five back-to-back
`_WriteSamples` calls of 16 samples leave 48 samples buffered (the fourth and
the fifth packet are both refused, the ring is the one left by the first
three writes), and four reads of 16 return the first three packets followed
by 16 all-zero frames, which is neither the last four packets nor four
packets of real data. -/
theorem C7_counterexample :
    (SndBuffer.writePackets 16 (ringOf 64 0 0 false)
      [ramp 16, ramp 32, ramp 48, ramp 64, ramp 80])._GetApproximateDataInBuffer = 48 ∧
    (SndBuffer.writePackets 16 (ringOf 64 0 0 false)
      [ramp 16, ramp 32, ramp 48, ramp 64, ramp 80]).m_wpos =
      (SndBuffer.writePackets 16 (ringOf 64 0 0 false) [ramp 16, ramp 32, ramp 48]).m_wpos ∧
    (SndBuffer.readPackets rawFrame 16 2 false 16
      (SndBuffer.writePackets 16 (ringOf 64 0 0 false)
        [ramp 16, ramp 32, ramp 48, ramp 64, ramp 80])
      [ramp 0, ramp 0, ramp 0, ramp 0]).2 =
      samples (ramp 16) 16 ++ samples (ramp 32) 16 ++ samples (ramp 48) 16
        ++ List.replicate 16 StereoOut32.Empty ∧
    (SndBuffer.readPackets rawFrame 16 2 false 16
      (SndBuffer.writePackets 16 (ringOf 64 0 0 false)
        [ramp 16, ramp 32, ramp 48, ramp 64, ramp 80])
      [ramp 0, ramp 0, ramp 0, ramp 0]).2 ≠
      samples (ramp 32) 16 ++ samples (ramp 48) 16 ++ samples (ramp 64) 16
        ++ samples (ramp 80) 16 := by
  decide

/-! ## FIFO order -/

theorem samples_length {α : Type} (p : Int → α) (n : Nat) : (samples p n).length = n := by
  simp [samples]

theorem samples_getElem? {α : Type} (p : Int → α) (n i : Nat) (h : i < n) :
    (samples p n)[i]? = some (p i) := by
  simp [samples, List.getElem?_map, List.getElem?_range h]

theorem holds_write (s : SndBuffer) (L : List StereoOut32) (d : Int → StereoOut32) (n : Nat)
    (h : s.Holds L) (hfit : (L.length : Int) + n < s.m_size) :
    (s._WriteSamples_Safe d n).Holds (L ++ samples d n) := by
  obtain ⟨hr0, hr1, hlen, hw, hbuf⟩ := h
  have hs : 0 < s.m_size := by omega
  obtain ⟨f1, f2, -⟩ := SndBuffer.writeSafe_frame s d n
  have hw0 : 0 ≤ s.m_wpos := by rw [hw]; exact Int.emod_nonneg _ (by omega)
  have hw1 : s.m_wpos < s.m_size := by rw [hw]; exact Int.emod_lt_of_pos _ hs
  have f3 := SndBuffer.writeSafe_wpos s d n hw0 hw1 (Int.ofNat_nonneg n)
  have hbuf2 := fun j => SndBuffer.writeSafe_buffer s d n j (by omega)
  have hwc := emod_cases (s.m_rpos + L.length) s.m_size (by omega) (by omega)
  rw [← hw] at hwc
  refine ⟨by rw [f2]; exact hr0, by rw [f1, f2]; exact hr1, ?_, ?_, ?_⟩
  · rw [f1, List.length_append, samples_length]
    push_cast
    exact hfit
  · rw [f1, f2, f3, hw, List.length_append, samples_length, Int.emod_add_emod]
    push_cast
    congr 1
    ring
  · intro i hi
    rw [List.length_append, samples_length] at hi
    rw [f1, f2, hbuf2]
    have hjc := emod_cases (s.m_rpos + i) s.m_size (by omega) (by omega)
    by_cases hlt : i < L.length
    · rw [List.getElem?_append_left hlt, hbuf i hlt]
      rw [if_neg (by omega), if_neg (by omega)]
    · rw [List.getElem?_append_right (by omega), samples_getElem? d n _ (by omega)]
      congr 1
      by_cases c1 : s.m_wpos ≤ (s.m_rpos + i) % s.m_size ∧
          (s.m_rpos + i) % s.m_size < s.m_wpos + n ∧ (s.m_rpos + i) % s.m_size < s.m_size
      · rw [if_pos c1]
        congr 1
        omega
      · rw [if_neg c1, if_pos (by omega)]
        congr 1
        omega

theorem holds_read (s : SndBuffer) (L : List StereoOut32) (out : Int → StereoOut32) (n : Nat)
    (h : s.Holds L) (hn : n ≤ L.length) :
    samples (s._ReadSamples_Safe out n).2 n = L.take n ∧
    (s._ReadSamples_Safe out n).1.Holds (L.drop n) := by
  obtain ⟨hr0, hr1, hlen, hw, hbuf⟩ := h
  have hs : 0 < s.m_size := by omega
  obtain ⟨f1, f2, f3, -⟩ := SndBuffer.readSafe_state s out n
  have f4 := SndBuffer.readSafe_rpos s out n hr0 hr1 (Int.ofNat_nonneg n)
  constructor
  · apply List.ext_getElem?
    intro i
    by_cases hi : i < n
    · rw [samples_getElem? _ n i hi, List.getElem?_take_of_lt hi, hbuf i (by omega),
        SndBuffer.readSafe_out s out n i hr1, if_pos (by omega)]
      congr 1
      rcases emod_cases (s.m_rpos + i) s.m_size (by omega) (by omega) with ⟨c1, c2⟩ | ⟨c1, c2⟩
      · rw [if_pos c1, c2]
      · rw [if_neg (by omega), c2]
    · rw [List.getElem?_eq_none (by rw [samples_length]; omega),
        List.getElem?_eq_none (by rw [List.length_take]; omega)]
  · have hcast : ((L.drop n).length : Int) = (L.length : Int) - n := by
      rw [List.length_drop]
      omega
    refine ⟨by rw [f4]; exact Int.emod_nonneg _ (by omega),
      by rw [f1, f4]; exact Int.emod_lt_of_pos _ hs, by rw [f1, hcast]; omega, ?_, ?_⟩
    · rw [f1, f2, f4, hw, hcast, Int.emod_add_emod]
      congr 1
      ring
    · intro i hi
      rw [List.length_drop] at hi
      rw [List.getElem?_drop, hbuf (n + i) (by omega), f1, f3, f4, Int.emod_add_emod]
      push_cast
      congr 3
      ring

theorem holds_writeAll (ws : List ((Int → StereoOut32) × Nat)) (s : SndBuffer)
    (L : List StereoOut32) (h : s.Holds L)
    (hfit : (L.length : Int) + SndBuffer.totalCount ws < s.m_size) :
    (SndBuffer.writeAll s ws).Holds (L ++ SndBuffer.written ws) ∧
    (SndBuffer.written ws).length = SndBuffer.totalCount ws := by
  induction ws generalizing s L with
  | nil =>
    simp only [SndBuffer.writeAll, SndBuffer.written, SndBuffer.totalCount, List.append_nil,
      List.length_nil]
    exact ⟨h, trivial⟩
  | cons c cs ih =>
    simp only [SndBuffer.totalCount] at hfit
    push_cast at hfit
    have h1 := holds_write s L c.1 c.2 h (by omega)
    have hsz := (SndBuffer.writeSafe_frame s c.1 c.2).1
    have h2 := ih (s._WriteSamples_Safe c.1 c.2) (L ++ samples c.1 c.2) h1
      (by rw [hsz, List.length_append, samples_length]; push_cast; omega)
    simp only [SndBuffer.writeAll, SndBuffer.written, SndBuffer.totalCount]
    rw [← List.append_assoc, List.length_append, samples_length, h2.2]
    exact ⟨h2.1, rfl⟩

theorem holds_readAll (rs : List ((Int → StereoOut32) × Nat)) (s : SndBuffer)
    (L : List StereoOut32) (h : s.Holds L) (hcount : SndBuffer.totalCount rs = L.length) :
    (SndBuffer.readAll s rs).2 = L ∧ (SndBuffer.readAll s rs).1.Holds [] := by
  induction rs generalizing s L with
  | nil =>
    simp only [SndBuffer.totalCount] at hcount
    have hL : L = [] := List.length_eq_zero.mp hcount.symm
    subst hL
    exact ⟨rfl, h⟩
  | cons c cs ih =>
    simp only [SndBuffer.totalCount] at hcount
    obtain ⟨h1, h2⟩ := holds_read s L c.1 c.2 h (by omega)
    have h3 := ih (s._ReadSamples_Safe c.1 c.2).1 (L.drop c.2) h2
      (by rw [List.length_drop]; omega)
    simp only [SndBuffer.readAll]
    rw [h1, h3.1, List.take_append_drop]
    exact ⟨rfl, h3.2⟩

/-- C1: for every ring of `m_size > 0` slots whose cursors are both equal to
some `p` in `[0, m_size)`, every sequence `ws` of `_WriteSamples_Safe` calls
whose counts total less than `m_size`, and every sequence `rs` of
`_ReadSamples_Safe` calls whose counts total the same, the samples returned
by the reads, concatenated, are the samples passed to the writes,
concatenated, and the final occupancy is 0. -/
theorem C1_fifo_order (s : SndBuffer) (ws rs : List ((Int → StereoOut32) × Nat))
    (hp0 : 0 ≤ s.m_rpos) (hp1 : s.m_rpos < s.m_size) (hstart : s.m_wpos = s.m_rpos)
    (hfit : (SndBuffer.totalCount ws : Int) < s.m_size)
    (hcount : SndBuffer.totalCount rs = SndBuffer.totalCount ws) :
    (SndBuffer.readAll (SndBuffer.writeAll s ws) rs).2 = SndBuffer.written ws ∧
    (SndBuffer.readAll (SndBuffer.writeAll s ws) rs).1._GetApproximateDataInBuffer = 0 := by
  have h0 : s.Holds [] := by
    refine ⟨hp0, hp1, by simp only [List.length_nil, Nat.cast_zero]; omega, ?_, ?_⟩
    · simp only [List.length_nil, Nat.cast_zero, add_zero]
      rw [hstart, Int.emod_eq_of_lt hp0 hp1]
    · intro i hi
      simp only [List.length_nil] at hi
      omega
  obtain ⟨h1, h2⟩ := holds_writeAll ws s [] h0
    (by simp only [List.length_nil, Nat.cast_zero]; omega)
  rw [List.nil_append] at h1
  obtain ⟨h3, h4⟩ := holds_readAll rs (SndBuffer.writeAll s ws) (SndBuffer.written ws) h1
    (by rw [hcount, h2])
  refine ⟨h3, ?_⟩
  obtain ⟨g0, g1, -, gw, -⟩ := h4
  simp only [List.length_nil, Nat.cast_zero, add_zero] at gw
  rw [Int.emod_eq_of_lt g0 g1] at gw
  unfold SndBuffer._GetApproximateDataInBuffer
  have e : (SndBuffer.readAll (SndBuffer.writeAll s ws) rs).1.m_wpos
      + (SndBuffer.readAll (SndBuffer.writeAll s ws) rs).1.m_size
      - (SndBuffer.readAll (SndBuffer.writeAll s ws) rs).1.m_rpos
      = (SndBuffer.readAll (SndBuffer.writeAll s ws) rs).1.m_size := by
    rw [gw]
    ring
  rw [e, Int.tmod_self]

/-- C1 at a ring of 5 slots with both cursors at 3: writes of 2 and 2 samples
(the second wraps) followed by reads of 3 and 1 samples. -/
theorem C1_fifo_order_witness :
    (SndBuffer.readAll
      (SndBuffer.writeAll (ringOf 5 3 3 false) [(ramp 10, 2), (ramp 20, 2)])
      [(ramp 0, 3), (ramp 0, 1)]).2 = [ramp 10 0, ramp 10 1, ramp 20 0, ramp 20 1] ∧
    (SndBuffer.readAll
      (SndBuffer.writeAll (ringOf 5 3 3 false) [(ramp 10, 2), (ramp 20, 2)])
      [(ramp 0, 3), (ramp 0, 1)]).1._GetApproximateDataInBuffer = 0 :=
  C1_fifo_order (ringOf 5 3 3 false) [(ramp 10, 2), (ramp 20, 2)] [(ramp 0, 3), (ramp 0, 1)]
    (by decide) (by decide) rfl (by decide) (by decide)

/-! ## GetAlignedBufferSize -/

theorem and_high_mask (x k : Nat) (hx : x < 2 ^ 32) (hk : k ≤ 32) :
    x &&& (2 ^ 32 - 2 ^ k) = 2 ^ k * (x / 2 ^ k) := by
  have hmask : 2 ^ 32 - 2 ^ k = 2 ^ k * (2 ^ (32 - k) - 1) := by
    rw [Nat.mul_sub, ← Nat.pow_add, Nat.add_sub_cancel' hk, Nat.mul_one]
  apply Nat.eq_of_testBit_eq
  intro i
  rw [Nat.testBit_and, hmask, Nat.testBit_mul_pow_two, Nat.testBit_mul_pow_two,
    Nat.testBit_two_pow_sub_one, ← Nat.shiftRight_eq_div_pow, Nat.testBit_shiftRight]
  by_cases hik : k ≤ i
  · have e : k + (i - k) = i := by omega
    rw [e]
    by_cases hi : i < 32
    · simp [hik]
      intro _
      omega
    · have hxi : x.testBit i = false :=
        Nat.testBit_lt_two_pow (lt_of_lt_of_le hx (Nat.pow_le_pow_right (by omega) (by omega)))
      simp [hxi]
  · simp [hik]

theorem toU32_of_nat (n : Nat) (h : n < 2 ^ 32) : toU32 (n : Int) = n := by
  unfold toU32
  have : ((n : Int) % 2 ^ 32) = n := Int.emod_eq_of_lt (by omega) (by exact_mod_cast h)
  rw [this, Int.toNat_natCast]

theorem toU32_ofU32 (u : Nat) (h : u < 2 ^ 32) : toU32 (ofU32 u) = u := by
  unfold ofU32
  split
  · exact toU32_of_nat u h
  · unfold toU32
    have e : ((u : Int) - 2 ^ 32) % 2 ^ 32 = u := by
      omega
    rw [e, Int.toNat_natCast]

theorem aligned_eq (k : Nat) (comp : Int) (h0 : 0 ≤ comp)
    (h1 : comp + 2 ^ k ≤ 2 ^ 31) :
    GetAlignedBufferSize (2 ^ k) comp = 2 ^ k * ((comp + 2 ^ k - 1) / 2 ^ k) := by
  have hpos : (0 : Int) < 2 ^ k := by positivity
  have hk : k ≤ 31 := by
    by_contra hk
    have : (2 : Int) ^ 32 ≤ 2 ^ k := pow_le_pow_right₀ (by norm_num) (by omega)
    omega
  have hkn : (2 : Nat) ^ k ≤ 2 ^ 31 := Nat.pow_le_pow_right (by norm_num) hk
  obtain ⟨x, hx⟩ := Int.eq_ofNat_of_zero_le (show 0 ≤ comp + 2 ^ k - 1 by omega)
  have hxlt : x < 2 ^ 31 := by
    have : (x : Int) < 2 ^ 31 := by omega
    exact_mod_cast this
  have hP : ((2 : Int) ^ k - 1) = ((2 ^ k - 1 : Nat) : Int) := by
    rw [Nat.cast_sub (Nat.one_le_two_pow)]
    push_cast
    rfl
  unfold GetAlignedBufferSize and32 not32
  rw [hx, hP, toU32_of_nat x (by omega), toU32_of_nat _ (by omega),
    toU32_ofU32 _ (by omega)]
  have hm : 2 ^ 32 - 1 - (2 ^ k - 1) = 2 ^ 32 - 2 ^ k := by
    have := Nat.one_le_two_pow (n := k)
    omega
  rw [hm, and_high_mask x k (by omega) (by omega)]
  have hle : 2 ^ k * (x / 2 ^ k) ≤ x := Nat.mul_div_le x (2 ^ k)
  unfold ofU32
  rw [if_pos (by omega)]
  push_cast
  rfl

theorem aligned_bounds (k : Nat) (comp : Int) (h0 : 0 ≤ comp)
    (h1 : comp + 2 ^ k ≤ 2 ^ 31) :
    (2 : Int) ^ k ∣ GetAlignedBufferSize (2 ^ k) comp ∧
    comp ≤ GetAlignedBufferSize (2 ^ k) comp ∧
    GetAlignedBufferSize (2 ^ k) comp < comp + 2 ^ k := by
  have hpos : (0 : Int) < 2 ^ k := by positivity
  rw [aligned_eq k comp h0 h1]
  have hdiv := Int.emod_add_ediv (comp + 2 ^ k - 1) (2 ^ k)
  have hm0 := Int.emod_nonneg (comp + 2 ^ k - 1) (ne_of_gt hpos)
  have hm1 := Int.emod_lt_of_pos (comp + 2 ^ k - 1) hpos
  exact ⟨Dvd.intro _ rfl, by omega, by omega⟩

/-- C19: for `SndOutPacketSize = 2^k` and `0 ≤ comp ≤ 2^31 - SndOutPacketSize`,
`GetAlignedBufferSize(comp)` is the least multiple of `SndOutPacketSize` that
is `≥ comp`: it is a multiple, `comp ≤ result < comp + SndOutPacketSize`, no
smaller multiple is `≥ comp`, and it is `comp` itself when `comp` is a
multiple (0 included). -/
theorem C19_aligned_buffer_size (k : Nat) (comp : Int) (h0 : 0 ≤ comp)
    (h1 : comp ≤ 2 ^ 31 - 2 ^ k) :
    (2 : Int) ^ k ∣ GetAlignedBufferSize (2 ^ k) comp ∧
    comp ≤ GetAlignedBufferSize (2 ^ k) comp ∧
    GetAlignedBufferSize (2 ^ k) comp < comp + 2 ^ k ∧
    (∀ m : Int, (2 : Int) ^ k ∣ m → comp ≤ m → GetAlignedBufferSize (2 ^ k) comp ≤ m) ∧
    ((2 : Int) ^ k ∣ comp → GetAlignedBufferSize (2 ^ k) comp = comp) := by
  obtain ⟨hd, hle, hlt⟩ := aligned_bounds k comp h0 (by omega)
  have hleast : ∀ m : Int, (2 : Int) ^ k ∣ m → comp ≤ m →
      GetAlignedBufferSize (2 ^ k) comp ≤ m := by
    intro m hm hcm
    by_contra hgt
    have hsub : (2 : Int) ^ k ∣ GetAlignedBufferSize (2 ^ k) comp - m := Int.dvd_sub hd hm
    have := Int.le_of_dvd (by omega) hsub
    omega
  exact ⟨hd, hle, hlt, hleast, fun hc => le_antisymm (hleast comp hc (le_refl _)) hle⟩

/-- C19 at `SndOutPacketSize = 64` and `comp = 70`: the result is 128. -/
theorem C19_aligned_buffer_size_witness :
    GetAlignedBufferSize (2 ^ 6) 70 = 128 ∧
    (70 : Int) ≤ GetAlignedBufferSize (2 ^ 6) 70 ∧
    GetAlignedBufferSize (2 ^ 6) 70 < 70 + 2 ^ 6 :=
  have h := C19_aligned_buffer_size 6 70 (by decide) (by decide)
  ⟨by decide, h.2.1, h.2.2.1⟩

/-! ## The reader and the writer -/

/-- C18 as stated fails for a small ring: with `SndOutPacketSize = 64`, a ring
of 64 slots, `SynchMode == 0`, the frozen flag set and both cursors at 0, the
refill threshold is `GetAlignedBufferSize(64 / 400) = 0`, so a request of 64
samples is granted in full although the occupancy is 0. -/
theorem C18_counterexample :
    ((0 : Int) < 64 ∧ (64 : Int) % 64 = 0) ∧
    (0 ≤ (ringOf 64 0 0 true).m_rpos ∧ (ringOf 64 0 0 true).m_rpos < 64) ∧
    (0 ≤ (ringOf 64 0 0 true).m_wpos ∧ (ringOf 64 0 0 true).m_wpos < 64) ∧
    ((0 : Int) ≤ 64 ∧ (64 : Int) ≤ 64) ∧
    (ringOf 64 0 0 true)._GetApproximateDataInBuffer = 0 ∧
    (SndBuffer.CheckUnderrunStatus 64 0 (ringOf 64 0 0 true) 64).nSamples = 64 ∧
    ¬ ((SndBuffer.CheckUnderrunStatus 64 0 (ringOf 64 0 0 true) 64).nSamples
        ≤ (ringOf 64 0 0 true)._GetApproximateDataInBuffer) := by
  decide

/-- C18, amended: for `SndOutPacketSize = 2^k`, every capacity below `2^31`
that is at least the refill divisor of the sync mode (32 for `SynchMode == 2`,
400 otherwise), every pair of cursors in `[0, m_size)`, either value of the
frozen flag and every request `n ≤ SndOutPacketSize`, the number of
samples `CheckUnderrunStatus` grants is at most the occupancy.  (Capacities
that are multiples of `SndOutPacketSize` are a special case.) -/
theorem C18_reader_behind_writer (k : Nat) (SynchMode : Int) (s : SndBuffer) (n : Int)
    (hk : k ≤ 30) (hsize : s.m_size < 2 ^ 31)
    (hbig : (if SynchMode = 2 then (32 : Int) else 400) ≤ s.m_size)
    (hr0 : 0 ≤ s.m_rpos) (hr1 : s.m_rpos < s.m_size)
    (hw0 : 0 ≤ s.m_wpos) (hw1 : s.m_wpos < s.m_size)
    (hn1 : n ≤ 2 ^ k) :
    (SndBuffer.CheckUnderrunStatus (2 ^ k) SynchMode s n).nSamples
      ≤ s._GetApproximateDataInBuffer := by
  obtain ⟨hd0, -⟩ := occupancy_range s hr0 hr1 hw0 hw1
  have hP : (2 : Int) ^ k ≤ 2 ^ 30 := pow_le_pow_right₀ (by norm_num) hk
  have hpos : (0 : Int) < 2 ^ k := by positivity
  cases hf : s.m_underrun_freeze
  · unfold SndBuffer.CheckUnderrunStatus
    simp only [hf, Bool.false_eq_true, if_false]
    split_ifs <;> simp <;> omega
  · have hcomp : 1 ≤ Int.tdiv s.m_size (if SynchMode = 2 then 32 else 400) ∧
        Int.tdiv s.m_size (if SynchMode = 2 then 32 else 400) ≤ 2 ^ 30 := by
      split_ifs at hbig ⊢
      · rw [Int.tdiv_eq_ediv (by omega) (by omega)]
        omega
      · rw [Int.tdiv_eq_ediv (by omega) (by omega)]
        omega
    obtain ⟨hdvd, hle, -⟩ := aligned_bounds k
      (Int.tdiv s.m_size (if SynchMode = 2 then 32 else 400)) (by omega) (by omega)
    have hT : (2 : Int) ^ k ≤ GetAlignedBufferSize (2 ^ k)
        (Int.tdiv s.m_size (if SynchMode = 2 then 32 else 400)) :=
      Int.le_of_dvd (by omega) hdvd
    by_cases hlow : s._GetApproximateDataInBuffer < GetAlignedBufferSize (2 ^ k)
        (Int.tdiv s.m_size (if SynchMode = 2 then 32 else 400))
    · rw [checkUnderrun_frozen_low (2 ^ k) SynchMode s n hf hlow]
      exact hd0
    · rw [checkUnderrun_frozen_high (2 ^ k) SynchMode s n hf (not_lt.mp hlow)]
      simp only
      omega

/-- C18 (amended) at `SndOutPacketSize = 64`, a ring of 1024 slots holding 48
samples, frozen, `SynchMode == 0` and a request of 64: nothing is granted. -/
theorem C18_reader_behind_writer_witness :
    (SndBuffer.CheckUnderrunStatus (2 ^ 6) 0 (ringOf 1024 1000 24 true) 64).nSamples
      ≤ (ringOf 1024 1000 24 true)._GetApproximateDataInBuffer :=
  C18_reader_behind_writer 6 0 (ringOf 1024 1000 24 true) 64 (by decide) (by decide)
    (by decide) (by decide) (by decide) (by decide) (by decide) (by decide)

/-! ## Refill threshold by mode -/

/-- C11 as stated fails: the divisor of adaptive-rate mode (`SynchMode == 0`)
is 400 and the divisor of fixed-rate mode (`SynchMode == 2`) is 32, so it is
not the case that the adaptive-rate divisor is the smaller one.  On a frozen
ring of 6400 slots holding 100 samples, with packets of 64, adaptive-rate mode
(threshold 64) leaves the frozen state while fixed-rate mode (threshold 256)
stays frozen. -/
theorem C11_counterexample :
    refillDivisor 0 = 400 ∧ refillDivisor 2 = 32 ∧
    ¬ (refillDivisor 0 < refillDivisor 2) ∧
    GetAlignedBufferSize 64 (Int.tdiv 6400 (refillDivisor 0)) = 64 ∧
    GetAlignedBufferSize 64 (Int.tdiv 6400 (refillDivisor 2)) = 256 ∧
    (SndBuffer.CheckUnderrunStatus 64 0 (ringOf 6400 0 100 true) 64).state.m_underrun_freeze
      = false ∧
    (SndBuffer.CheckUnderrunStatus 64 2 (ringOf 6400 0 100 true) 64).state.m_underrun_freeze
      = true := by
  decide

/-- C11, amended: in a frozen state `CheckUnderrunStatus` compares the
occupancy with `GetAlignedBufferSize(m_size / D)`, staying frozen below it and
leaving the frozen state otherwise, where `D = refillDivisor SynchMode` is 400
in adaptive-rate mode (`SynchMode == 0`) and 32 in fixed-rate mode
(`SynchMode == 2`): the fixed-rate divisor is the smaller one. -/
theorem C11_refill_threshold (SndOutPacketSize SynchMode : Int) (s : SndBuffer) (n : Int)
    (hfrozen : s.m_underrun_freeze = true) :
    (s._GetApproximateDataInBuffer <
        GetAlignedBufferSize SndOutPacketSize (Int.tdiv s.m_size (refillDivisor SynchMode)) →
      SndBuffer.CheckUnderrunStatus SndOutPacketSize SynchMode s n =
        { state := s, nSamples := 0, quietSampleCount := n, ret := false }) ∧
    (GetAlignedBufferSize SndOutPacketSize (Int.tdiv s.m_size (refillDivisor SynchMode))
        ≤ s._GetApproximateDataInBuffer →
      SndBuffer.CheckUnderrunStatus SndOutPacketSize SynchMode s n =
        { state := { s with m_underrun_freeze := false, lastPct := 0 },
          nSamples := n, quietSampleCount := 0, ret := true }) ∧
    refillDivisor 0 = 400 ∧ refillDivisor 2 = 32 ∧ refillDivisor 2 < refillDivisor 0 :=
  ⟨fun h => checkUnderrun_frozen_low SndOutPacketSize SynchMode s n hfrozen h,
   fun h => checkUnderrun_frozen_high SndOutPacketSize SynchMode s n hfrozen h,
   by decide, by decide, by decide⟩

/-- C11 (amended) on a frozen ring of 6400 slots holding 100 samples, packets
of 64, in fixed-rate mode: the threshold is 256 and the state stays frozen. -/
theorem C11_refill_threshold_witness :
    (ringOf 6400 0 100 true).m_underrun_freeze = true ∧
    SndBuffer.CheckUnderrunStatus 64 2 (ringOf 6400 0 100 true) 64 =
      { state := ringOf 6400 0 100 true, nSamples := 0, quietSampleCount := 64,
        ret := false } :=
  ⟨rfl, (C11_refill_threshold 64 2 (ringOf 6400 0 100 true) 64 rfl).1 (by decide)⟩

/-! ## Sample format round trips -/

theorem wrap32_of_range (x : Int) (h0 : -(2 ^ 31) ≤ x) (h1 : x < 2 ^ 31) : wrap32 x = x := by
  unfold wrap32 ofU32 toU32
  by_cases hx : 0 ≤ x
  · have e : x % 2 ^ 32 = x := Int.emod_eq_of_lt hx (by omega)
    rw [e]
    split <;> omega
  · have e : x % 2 ^ 32 = x + 2 ^ 32 := by omega
    rw [e]
    split <;> omega

theorem wrap16_of_range (x : Int) (h0 : -(2 ^ 15) ≤ x) (h1 : x < 2 ^ 15) : wrap16 x = x := by
  unfold wrap16
  split <;> omega

theorem shift_round_trip (k : Nat) (a : Int) (hk : k ≤ 16)
    (h0 : -(2 ^ 15) ≤ a) (h1 : a < 2 ^ 15) :
    wrap16 (wrap32 (a * 2 ^ k) >>> k) = a := by
  have hp1 : (1 : Int) ≤ 2 ^ k := one_le_pow₀ (by norm_num)
  have hp2 : (2 : Int) ^ k ≤ 2 ^ 16 := pow_le_pow_right₀ (by norm_num) hk
  have hlo : -(2 ^ 31) ≤ a * 2 ^ k := by nlinarith
  have hhi : a * 2 ^ k < 2 ^ 31 := by nlinarith
  rw [wrap32_of_range _ hlo hhi, Int.shiftRight_eq_div_pow]
  push_cast
  rw [Int.mul_ediv_cancel _ (by omega), wrap16_of_range a h0 h1]

/-- C12: for every 16-bit stereo sample `s` (each channel in
`[-32768, 32767]`) and every volume shift `0 ≤ k ≤ 16`,
`DownSample(UpSample(s)) = s` on both channels. -/
theorem C12_round_trip_16 (k : Nat) (s : StereoOut16) (hk : k ≤ 16)
    (hl0 : -32768 ≤ s.Left) (hl1 : s.Left ≤ 32767)
    (hr0 : -32768 ≤ s.Right) (hr1 : s.Right ≤ 32767) :
    (s.UpSample k).DownSample k = s := by
  unfold StereoOut16.UpSample StereoOut32.DownSample
  simp only
  rw [shift_round_trip k s.Left hk (by omega) (by omega),
    shift_round_trip k s.Right hk (by omega) (by omega)]

/-- C12 at the sample `(-32768, 32767)` and a volume shift of 12. -/
theorem C12_round_trip_16_witness :
    ((⟨-32768, 32767⟩ : StereoOut16).UpSample 12).DownSample 12 = ⟨-32768, 32767⟩ :=
  C12_round_trip_16 12 ⟨-32768, 32767⟩ (by decide) (by decide) (by decide) (by decide)
    (by decide)

/-- C13 as stated fails when the shifted value does not fit in 16 bits: with a
volume shift of 12, the 32-bit sample `(2^30, -2^31)` is down-sampled to
`(0, 0)` (the shifted values `2^18` and `-2^19` lose their high bits in the
16-bit channels), and up-sampling gives `(0, 0)`, not the sample with its low
12 bits cleared. -/
theorem C13_counterexample :
    (-(2 ^ 31) ≤ (2 ^ 30 : Int) ∧ (2 ^ 30 : Int) ≤ 2 ^ 31 - 1) ∧
    (StereoOut32.DownSample 12 ⟨2 ^ 30, -(2 ^ 31)⟩) = ⟨0, 0⟩ ∧
    (StereoOut32.DownSample 12 ⟨2 ^ 30, -(2 ^ 31)⟩).UpSample 12 = ⟨0, 0⟩ ∧
    (StereoOut32.DownSample 12 ⟨2 ^ 30, -(2 ^ 31)⟩).UpSample 12
      ≠ ⟨2 ^ 12 * ((2 ^ 30 : Int) / 2 ^ 12), 2 ^ 12 * ((-(2 ^ 31) : Int) / 2 ^ 12)⟩ := by
  decide

theorem shift_clears_low_bits (k : Nat) (a : Int) (hk : k ≤ 31)
    (h0 : -(2 ^ 31) ≤ a) (h1 : a < 2 ^ 31)
    (hf0 : -(2 ^ 15) ≤ a / 2 ^ k) (hf1 : a / 2 ^ k < 2 ^ 15) :
    wrap32 (wrap16 (a >>> k) * 2 ^ k) = 2 ^ k * (a / 2 ^ k) := by
  have hpos : (0 : Int) < 2 ^ k := by positivity
  rw [Int.shiftRight_eq_div_pow]
  push_cast
  rw [wrap16_of_range _ hf0 hf1]
  have hdiv := Int.emod_add_ediv a (2 ^ k)
  have hm0 := Int.emod_nonneg a (ne_of_gt hpos)
  have hsplit : (2 : Int) ^ 31 = 2 ^ k * 2 ^ (31 - k) := by
    rw [← pow_add]
    congr 1
    omega
  have hq : -(2 ^ (31 - k)) ≤ a / 2 ^ k := by
    apply Int.le_ediv_of_mul_le hpos
    have : -(2 : Int) ^ (31 - k) * 2 ^ k = -(2 ^ 31) := by rw [hsplit]; ring
    rw [this]
    exact h0
  have hlo : -(2 ^ 31) ≤ a / 2 ^ k * 2 ^ k := by
    have := Int.mul_le_mul_of_nonneg_right hq (le_of_lt hpos)
    have e : -(2 : Int) ^ (31 - k) * 2 ^ k = -(2 ^ 31) := by rw [hsplit]; ring
    rw [e] at this
    exact this
  have hhi : a / 2 ^ k * 2 ^ k < 2 ^ 31 := by
    have : a / 2 ^ k * 2 ^ k = 2 ^ k * (a / 2 ^ k) := by ring
    omega
  rw [wrap32_of_range _ hlo hhi]
  ring

/-- C13, amended: for a volume shift `0 ≤ k ≤ 31` and every 32-bit stereo
sample `S` whose shifted channels `floor(S / 2^k)` fit in 16 bits (every `S`
when `k ≥ 16`), `UpSample(DownSample(S))` is `S` with exactly its low `k` bits
cleared on each channel, `2^k * floor(S / 2^k)`. -/
theorem C13_round_trip_32 (k : Nat) (S : StereoOut32) (hk : k ≤ 31)
    (hl0 : -(2 ^ 31) ≤ S.Left) (hl1 : S.Left ≤ 2 ^ 31 - 1)
    (hr0 : -(2 ^ 31) ≤ S.Right) (hr1 : S.Right ≤ 2 ^ 31 - 1)
    (hlf : -(2 ^ 15) ≤ S.Left / 2 ^ k ∧ S.Left / 2 ^ k < 2 ^ 15)
    (hrf : -(2 ^ 15) ≤ S.Right / 2 ^ k ∧ S.Right / 2 ^ k < 2 ^ 15) :
    (S.DownSample k).UpSample k =
      { Left := 2 ^ k * (S.Left / 2 ^ k), Right := 2 ^ k * (S.Right / 2 ^ k) } := by
  unfold StereoOut16.UpSample StereoOut32.DownSample
  simp only
  rw [shift_clears_low_bits k S.Left hk hl0 (by omega) hlf.1 hlf.2,
    shift_clears_low_bits k S.Right hk hr0 (by omega) hrf.1 hrf.2]

/-- C13 (amended) at a volume shift of 12 and the sample `(123456789, -4097)`,
whose shifted channels 30140 and -2 fit in 16 bits. -/
theorem C13_round_trip_32_witness :
    (StereoOut32.DownSample 12 ⟨123456789, -4097⟩).UpSample 12
      = { Left := 2 ^ 12 * ((123456789 : Int) / 2 ^ 12),
          Right := 2 ^ 12 * ((-4097 : Int) / 2 ^ 12) } :=
  C13_round_trip_32 12 ⟨123456789, -4097⟩ (by decide) (by decide) (by decide) (by decide)
    (by decide) (by decide) (by decide)

/-- For a volume shift of at least 16 every 32-bit channel fits after the
shift, so the amended C13 covers every sample there. -/
theorem shifted_fits_16 (k : Nat) (a : Int) (hk : 16 ≤ k)
    (h0 : -(2 ^ 31) ≤ a) (h1 : a < 2 ^ 31) :
    -(2 ^ 15) ≤ a / 2 ^ k ∧ a / 2 ^ k < 2 ^ 15 := by
  have hpos : (0 : Int) < 2 ^ k := by positivity
  have hge : (2 : Int) ^ 16 ≤ 2 ^ k := pow_le_pow_right₀ (by norm_num) hk
  constructor
  · apply Int.le_ediv_of_mul_le hpos
    nlinarith
  · apply Int.ediv_lt_of_lt_mul hpos
    nlinarith

/-! ## Memory-card XOR checksum -/

theorem xorOfBytes_succ (buf : Int → Nat) (n : Nat) :
    xorOfBytes buf (n + 1) = xorOfBytes buf n ^^^ buf (n : Int) := by
  unfold xorOfBytes
  rw [List.range_succ, List.foldl_append]
  rfl

theorem xorOfBytes_lt (buf : Int → Nat) (hb : ∀ j, buf j < 256) (n : Nat) :
    xorOfBytes buf n < 256 := by
  induction n with
  | zero => exact Nat.zero_lt_succ 255
  | succ n ih =>
    rw [xorOfBytes_succ]
    exact Nat.xor_lt_two_pow (n := 8) ih (hb n)

theorem doXorLoop_eq (buf : Int → Nat) (hb : ∀ j, buf j < 256) (length : Nat)
    (hlen : length ≤ 255) (d : Nat) :
    ∀ (i fuel : Nat), i + d = length → d < fuel →
      _mcd.DoXorLoop buf length fuel i (xorOfBytes buf i) = some (xorOfBytes buf length) := by
  induction d with
  | zero =>
    intro i fuel hi hf
    obtain ⟨f, rfl⟩ : ∃ f, fuel = f + 1 := ⟨fuel - 1, by omega⟩
    have e : i = length := by omega
    subst e
    simp [_mcd.DoXorLoop]
  | succ d ih =>
    intro i fuel hi hf
    obtain ⟨f, rfl⟩ : ∃ f, fuel = f + 1 := ⟨fuel - 1, by omega⟩
    have hlt : i < length := by omega
    have hx := xorOfBytes_lt buf hb (i + 1)
    rw [xorOfBytes_succ] at hx
    simp only [_mcd.DoXorLoop, if_pos hlt]
    rw [Nat.mod_eq_of_lt (show i + 1 < 256 by omega), Nat.mod_eq_of_lt hx,
      ← xorOfBytes_succ]
    exact ih (i + 1) f (by omega) (by omega)

/-- C20: for every buffer of bytes and every `length ≤ 255`,
`_mcd::DoXor(buf, length)` terminates (any fuel above `length` is enough) and
returns the bitwise XOR of `buf[0], ..., buf[length - 1]`, which is 0 for
`length = 0`. -/
theorem C20_do_xor (buf : Int → Nat) (length fuel : Nat) (hb : ∀ j, buf j < 256)
    (hlen : length ≤ 255) (hfuel : length < fuel) :
    _mcd.DoXor fuel buf length = some (xorOfBytes buf length) ∧ xorOfBytes buf 0 = 0 :=
  ⟨doXorLoop_eq buf hb length hlen length 0 fuel (by omega) hfuel, rfl⟩

/-- C20 on the 3 bytes `0x5A, 0xFF, 0x0F`, whose XOR is `0xAA`. -/
theorem C20_do_xor_witness :
    _mcd.DoXor 4 (fun i => if i = 0 then 90 else if i = 1 then 255 else 15) 3 = some 170 :=
  (C20_do_xor (fun i => if i = 0 then 90 else if i = 1 then 255 else 15) 3 4
    (fun j => by dsimp only; split_ifs <;> decide) (by decide) (by decide)).1.trans
    (by decide)

theorem doXorLoop_diverges (buf : Int → Nat) (length : Nat) (hlen : 256 ≤ length) :
    ∀ (fuel i x : Nat), i < 256 → _mcd.DoXorLoop buf length fuel i x = none := by
  intro fuel
  induction fuel with
  | zero => intro i x _; rfl
  | succ f ih =>
    intro i x hi
    simp only [_mcd.DoXorLoop, if_pos (show i < length by omega)]
    exact ih _ _ (Nat.mod_lt _ (by decide))

/-! ## Output module registry -/

theorem findOutputModuleFrom_spec (omodid : String) (mods : List SndOutModule) :
    ∀ modcnt : Nat,
      modcnt ≤ findOutputModuleFrom omodid mods modcnt ∧
      findOutputModuleFrom omodid mods modcnt ≤ modcnt + mods.length ∧
      (∀ i m, modcnt + i < findOutputModuleFrom omodid mods modcnt → mods[i]? = some m →
        m.GetIdent ≠ omodid) ∧
      (∀ m, mods[findOutputModuleFrom omodid mods modcnt - modcnt]? = some m →
        m.GetIdent = omodid) := by
  induction mods with
  | nil =>
    intro modcnt
    simp [findOutputModuleFrom]
  | cons a rest ih =>
    intro modcnt
    by_cases ha : a.GetIdent = omodid
    · simp only [findOutputModuleFrom, if_pos ha]
      refine ⟨le_refl _, by omega, ?_, ?_⟩
      · intro i m hi
        omega
      · intro m hm
        simp only [Nat.sub_self, List.getElem?_cons_zero, Option.some.injEq] at hm
        rw [← hm]
        exact ha
    · simp only [findOutputModuleFrom, if_neg ha]
      obtain ⟨h1, h2, h3, h4⟩ := ih (modcnt + 1)
      refine ⟨by omega, by simp only [List.length_cons]; omega, ?_, ?_⟩
      · intro i m hi hm
        cases i with
        | zero =>
          simp only [List.getElem?_cons_zero, Option.some.injEq] at hm
          rw [← hm]
          exact ha
        | succ j =>
          simp only [List.getElem?_cons_succ] at hm
          exact h3 j m (by omega) hm
      · intro m hm
        have e : findOutputModuleFrom omodid rest (modcnt + 1) - modcnt
            = (findOutputModuleFrom omodid rest (modcnt + 1) - (modcnt + 1)) + 1 := by omega
        rw [e, List.getElem?_cons_succ] at hm
        exact h4 m hm

/-- C16: for every backend list and every identifier, `FindOutputModuleById`
returns the smallest index whose backend's `GetIdent()` equals the identifier
(no earlier backend matches, and the backend at the result matches when the
result is inside the list), and the index of the terminating `nullptr` (the
number of backends) when no backend matches.  With `NullOut` first, as in
`mods`, "nullout" resolves to index 0, the no-op backend, and "NullOut"
resolves to the sentinel unless another backend is called "NullOut". -/
theorem C16_find_output_module (mods : List SndOutModule) (omodid : String) :
    FindOutputModuleById mods omodid ≤ mods.length ∧
    (∀ i m, i < FindOutputModuleById mods omodid → mods[i]? = some m →
      m.GetIdent ≠ omodid) ∧
    (∀ m, mods[FindOutputModuleById mods omodid]? = some m → m.GetIdent = omodid) ∧
    ((∀ m ∈ mods, m.GetIdent ≠ omodid) → FindOutputModuleById mods omodid = mods.length) ∧
    (∀ rest, FindOutputModuleById (NullOut :: rest) "nullout" = 0 ∧
      (NullOut :: rest)[FindOutputModuleById (NullOut :: rest) "nullout"]? = some NullOut) ∧
    (∀ rest, (∀ m ∈ rest, m.GetIdent ≠ "NullOut") →
      FindOutputModuleById (NullOut :: rest) "NullOut" = (NullOut :: rest).length) := by
  have key : ∀ (l : List SndOutModule) (x : String),
      FindOutputModuleById l x ≤ l.length ∧
      (∀ i m, i < FindOutputModuleById l x → l[i]? = some m → m.GetIdent ≠ x) ∧
      (∀ m, l[FindOutputModuleById l x]? = some m → m.GetIdent = x) ∧
      ((∀ m ∈ l, m.GetIdent ≠ x) → FindOutputModuleById l x = l.length) := by
    intro l x
    obtain ⟨-, h2, h3, h4⟩ := findOutputModuleFrom_spec x l 0
    unfold FindOutputModuleById
    refine ⟨by omega, fun i m hi hm => h3 i m (by omega) hm, fun m hm => h4 m hm, ?_⟩
    intro hnone
    by_contra hne
    have hlt : findOutputModuleFrom x l 0 < l.length := by omega
    have hm := h4 (l[findOutputModuleFrom x l 0]) (by
      rw [Nat.sub_zero]
      exact List.getElem?_eq_getElem hlt)
    exact hnone _ (List.getElem_mem hlt) hm
  obtain ⟨k1, k2, k3, k4⟩ := key mods omodid
  refine ⟨k1, k2, k3, k4, ?_, ?_⟩
  · intro rest
    have e : FindOutputModuleById (NullOut :: rest) "nullout" = 0 := by
      simp [FindOutputModuleById, findOutputModuleFrom, NullOut]
    rw [e]
    exact ⟨rfl, List.getElem?_cons_zero⟩
  · intro rest hrest
    apply (key (NullOut :: rest) "NullOut").2.2.2
    intro m hm
    rcases List.mem_cons.mp hm with h | h
    · rw [h]
      decide
    · exact hrest m h

/-! ## No-op fallback -/

theorem commitPacket_frame (cfg : Config) (st : Pipeline) :
    (SndBuffer.commitPacket cfg st).sndTempProgress = st.sndTempProgress ∧
    (SndBuffer.commitPacket cfg st).OutputModule = st.OutputModule ∧
    (SndBuffer.commitPacket cfg st).ssFreeze = st.ssFreeze ∧
    (SndBuffer.commitPacket cfg st).sndTempBuffer16 = st.sndTempBuffer16 ∧
    (SndBuffer.commitPacket cfg st).m_dsp_progress = st.m_dsp_progress := by
  unfold SndBuffer.commitPacket SndBuffer.timeStretchWrite
  split <;> exact ⟨rfl, rfl, rfl, rfl, rfl⟩

theorem dspDrain_frame (cfg : Config) :
    ∀ (fuel : Nat) (st : Pipeline) (ei : Int),
      (SndBuffer.dspDrain cfg fuel st ei).1.sndTempProgress = st.sndTempProgress ∧
      (SndBuffer.dspDrain cfg fuel st ei).1.OutputModule = st.OutputModule ∧
      (SndBuffer.dspDrain cfg fuel st ei).1.ssFreeze = st.ssFreeze := by
  intro fuel
  induction fuel with
  | zero => intro st ei; exact ⟨rfl, rfl, rfl⟩
  | succ f ih =>
    intro st ei
    simp only [SndBuffer.dspDrain]
    split
    · obtain ⟨h1, h2, h3⟩ := ih
        { SndBuffer.commitPacket cfg
            { st with
              sndTempBuffer := SndBuffer.upSampleLoop cfg.SndOutVolumeShift st.sndTempBuffer16 ei
                cfg.SndOutPacketSize.toNat st.sndTempBuffer } with
          m_dsp_progress := (SndBuffer.commitPacket cfg
            { st with
              sndTempBuffer := SndBuffer.upSampleLoop cfg.SndOutVolumeShift st.sndTempBuffer16 ei
                cfg.SndOutPacketSize.toNat st.sndTempBuffer }).m_dsp_progress
            - cfg.SndOutPacketSize }
        (ei + cfg.SndOutPacketSize)
      obtain ⟨c1, c2, c3, -, -⟩ := commitPacket_frame cfg
        { st with
          sndTempBuffer := SndBuffer.upSampleLoop cfg.SndOutVolumeShift st.sndTempBuffer16 ei
            cfg.SndOutPacketSize.toNat st.sndTempBuffer }
      exact ⟨h1.trans c1, h2.trans c2, h3.trans c3⟩
    · exact ⟨rfl, rfl, rfl⟩

theorem dspStage_frame (cfg : Config) (st : Pipeline) :
    (SndBuffer.dspStage cfg st).sndTempProgress = st.sndTempProgress ∧
    (SndBuffer.dspStage cfg st).OutputModule = st.OutputModule ∧
    (SndBuffer.dspStage cfg st).ssFreeze = st.ssFreeze := by
  unfold SndBuffer.dspStage
  simp only
  split
  · exact dspDrain_frame cfg _ _ _
  · exact dspDrain_frame cfg _ _ _

theorem flushPacket_frame (cfg : Config) (st : Pipeline) :
    (SndBuffer.flushPacket cfg st).sndTempProgress = st.sndTempProgress ∧
    (SndBuffer.flushPacket cfg st).OutputModule = st.OutputModule := by
  have hc := fun t => commitPacket_frame cfg t
  have hd := fun t => dspStage_frame cfg t
  unfold SndBuffer.flushPacket
  split_ifs <;>
    first
    | exact ⟨rfl, rfl⟩
    | exact ⟨(hd _).1, (hd _).2.1⟩
    | exact ⟨(hc _).1, (hc _).2.1⟩

theorem write_accumulates (cfg : Config) (st : Pipeline) (x : StereoOut32)
    (hbackend : cfg.mods[st.OutputModule]? ≠ some NullOut)
    (hroom : st.sndTempProgress + 1 < cfg.SndOutPacketSize) :
    SndBuffer.Write cfg st x =
      { st with
        sndTempBuffer := Function.update st.sndTempBuffer st.sndTempProgress x
        sndTempProgress := st.sndTempProgress + 1 } := by
  unfold SndBuffer.Write
  simp only [if_neg hbackend, if_pos hroom]

theorem write_flushes (cfg : Config) (st : Pipeline) (x : StereoOut32)
    (hbackend : cfg.mods[st.OutputModule]? ≠ some NullOut)
    (hfull : ¬ st.sndTempProgress + 1 < cfg.SndOutPacketSize) :
    SndBuffer.Write cfg st x =
      SndBuffer.flushPacket cfg
        { st with
          sndTempBuffer := Function.update st.sndTempBuffer st.sndTempProgress x
          sndTempProgress := 0 } := by
  unfold SndBuffer.Write
  simp only [if_neg hbackend, if_neg hfull]

theorem submitAll_snoc (cfg : Config) (xs : List StereoOut32) (x : StereoOut32) :
    ∀ st, SndBuffer.submitAll cfg st (xs ++ [x])
      = SndBuffer.Write cfg (SndBuffer.submitAll cfg st xs) x := by
  induction xs with
  | nil => intro st; rfl
  | cons y ys ih =>
    intro st
    simp only [List.cons_append, SndBuffer.submitAll]
    exact ih _

theorem submitAll_inv (cfg : Config) (st0 : Pipeline)
    (hP : 0 < cfg.SndOutPacketSize)
    (hbackend : cfg.mods[st0.OutputModule]? ≠ some NullOut)
    (hempty : st0.sndTempProgress = 0) (xs : List StereoOut32) :
    (SndBuffer.submitAll cfg st0 xs).OutputModule = st0.OutputModule ∧
    (SndBuffer.submitAll cfg st0 xs).sndTempProgress
      = (xs.length : Int) % cfg.SndOutPacketSize ∧
    ∀ i : Nat, (i : Int) < (SndBuffer.submitAll cfg st0 xs).sndTempProgress →
      xs[xs.length - (SndBuffer.submitAll cfg st0 xs).sndTempProgress.toNat + i]?
        = some ((SndBuffer.submitAll cfg st0 xs).sndTempBuffer i) := by
  induction xs using List.reverseRecOn with
  | nil =>
    refine ⟨rfl, ?_, ?_⟩
    · simp only [SndBuffer.submitAll, List.length_nil, Nat.cast_zero, Int.zero_emod]
      exact hempty
    · intro i hi
      simp only [SndBuffer.submitAll] at hi
      omega
  | append_singleton xs x ih =>
    obtain ⟨h1, h2, h3⟩ := ih
    rw [submitAll_snoc]
    generalize SndBuffer.submitAll cfg st0 xs = st at *
    have hr0 : 0 ≤ st.sndTempProgress := by rw [h2]; exact Int.emod_nonneg _ (by omega)
    have hr1 : st.sndTempProgress < cfg.SndOutPacketSize := by
      rw [h2]; exact Int.emod_lt_of_pos _ hP
    have hb : cfg.mods[st.OutputModule]? ≠ some NullOut := by rw [h1]; exact hbackend
    have hlen : ((xs ++ [x]).length : Int) % cfg.SndOutPacketSize
        = (st.sndTempProgress + 1) % cfg.SndOutPacketSize := by
      rw [List.length_append, List.length_singleton, h2, Int.emod_add_emod]
      push_cast
      rfl
    have hrn : st.sndTempProgress ≤ xs.length := by
      rw [h2]
      have h := Int.emod_add_ediv (xs.length : Int) cfg.SndOutPacketSize
      have hq : 0 ≤ cfg.SndOutPacketSize * ((xs.length : Int) / cfg.SndOutPacketSize) :=
        mul_nonneg (le_of_lt hP) (Int.ediv_nonneg (by omega) (le_of_lt hP))
      omega
    by_cases hroom : st.sndTempProgress + 1 < cfg.SndOutPacketSize
    · rw [write_accumulates cfg st x hb hroom]
      refine ⟨h1, ?_, ?_⟩
      · rw [hlen, Int.emod_eq_of_lt (by omega) hroom]
      · intro i hi
        simp only at hi ⊢
        have e : (xs ++ [x]).length - (st.sndTempProgress + 1).toNat + i
            = xs.length - st.sndTempProgress.toNat + i := by
          rw [List.length_append, List.length_singleton]
          omega
        rw [e]
        by_cases hi2 : (i : Int) < st.sndTempProgress
        · rw [List.getElem?_append_left (by omega), h3 i hi2,
            Function.update_noteq (by omega)]
        · have e2 : (i : Int) = st.sndTempProgress := by omega
          rw [List.getElem?_append_right (by omega), e2, Function.update_same]
          have e3 : xs.length - st.sndTempProgress.toNat + i - xs.length = 0 := by omega
          rw [e3]
          rfl
    · rw [write_flushes cfg st x hb hroom]
      obtain ⟨f1, f2⟩ := flushPacket_frame cfg
        { st with
          sndTempBuffer := Function.update st.sndTempBuffer st.sndTempProgress x
          sndTempProgress := 0 }
      have e : st.sndTempProgress + 1 = cfg.SndOutPacketSize := by omega
      refine ⟨f2.trans h1, ?_, ?_⟩
      · rw [f1, hlen, e, Int.emod_self]
      · intro i hi
        rw [f1] at hi
        simp only at hi
        omega

theorem packetizer_steps (cfg : Config) (st0 : Pipeline) (xs : List StereoOut32)
    (x : StereoOut32) (hP : 0 < cfg.SndOutPacketSize)
    (hbackend : cfg.mods[st0.OutputModule]? ≠ some NullOut)
    (hempty : st0.sndTempProgress = 0) :
    (SndBuffer.submitAll cfg st0 xs).sndTempProgress
      = (xs.length : Int) % cfg.SndOutPacketSize ∧
    (((xs.length : Int) + 1) % cfg.SndOutPacketSize ≠ 0 →
      SndBuffer.Write cfg (SndBuffer.submitAll cfg st0 xs) x =
        { SndBuffer.submitAll cfg st0 xs with
          sndTempBuffer := Function.update (SndBuffer.submitAll cfg st0 xs).sndTempBuffer
            (SndBuffer.submitAll cfg st0 xs).sndTempProgress x
          sndTempProgress := (SndBuffer.submitAll cfg st0 xs).sndTempProgress + 1 }) ∧
    (((xs.length : Int) + 1) % cfg.SndOutPacketSize = 0 →
      SndBuffer.Write cfg (SndBuffer.submitAll cfg st0 xs) x =
        SndBuffer.flushPacket cfg
          { SndBuffer.submitAll cfg st0 xs with
            sndTempBuffer := Function.update (SndBuffer.submitAll cfg st0 xs).sndTempBuffer
              (SndBuffer.submitAll cfg st0 xs).sndTempProgress x
            sndTempProgress := 0 } ∧
      samples (Function.update (SndBuffer.submitAll cfg st0 xs).sndTempBuffer
          (SndBuffer.submitAll cfg st0 xs).sndTempProgress x) cfg.SndOutPacketSize.toNat
        = (xs ++ [x]).drop (xs.length + 1 - cfg.SndOutPacketSize.toNat)) ∧
    (∀ st : Pipeline, st.ssFreeze = 0 →
      SndBuffer.flushPacket cfg st =
        if cfg.dspBuild = true ∧ cfg.dspPluginEnabled = true then SndBuffer.dspStage cfg st
        else SndBuffer.commitPacket cfg st) ∧
    (cfg.SynchMode ≠ 0 → ∀ st : Pipeline,
      SndBuffer.commitPacket cfg st =
        { st with ring := st.ring._WriteSamples st.sndTempBuffer cfg.SndOutPacketSize }) := by
  obtain ⟨h1, h2, h3⟩ := submitAll_inv cfg st0 hP hbackend hempty xs
  generalize SndBuffer.submitAll cfg st0 xs = st at *
  have hr0 : 0 ≤ st.sndTempProgress := by rw [h2]; exact Int.emod_nonneg _ (by omega)
  have hr1 : st.sndTempProgress < cfg.SndOutPacketSize := by
    rw [h2]; exact Int.emod_lt_of_pos _ hP
  have hb : cfg.mods[st.OutputModule]? ≠ some NullOut := by rw [h1]; exact hbackend
  have hnext : ((xs.length : Int) + 1) % cfg.SndOutPacketSize
      = (st.sndTempProgress + 1) % cfg.SndOutPacketSize := by
    rw [h2, Int.emod_add_emod]
  have hrn : st.sndTempProgress ≤ xs.length := by
    rw [h2]
    have h := Int.emod_add_ediv (xs.length : Int) cfg.SndOutPacketSize
    have hq : 0 ≤ cfg.SndOutPacketSize * ((xs.length : Int) / cfg.SndOutPacketSize) :=
      mul_nonneg (le_of_lt hP) (Int.ediv_nonneg (by omega) (le_of_lt hP))
    omega
  refine ⟨h2, ?_, ?_, ?_, ?_⟩
  · intro hne
    apply write_accumulates cfg st x hb
    by_contra hfull
    have e : st.sndTempProgress + 1 = cfg.SndOutPacketSize := by omega
    rw [hnext, e, Int.emod_self] at hne
    exact hne rfl
  · intro hzero
    have hfull : ¬ st.sndTempProgress + 1 < cfg.SndOutPacketSize := by
      intro hroom
      rw [hnext, Int.emod_eq_of_lt (by omega) hroom] at hzero
      omega
    have e : st.sndTempProgress + 1 = cfg.SndOutPacketSize := by omega
    refine ⟨write_flushes cfg st x hb hfull, ?_⟩
    apply List.ext_getElem?
    intro i
    rw [List.getElem?_drop]
    by_cases hi : i < cfg.SndOutPacketSize.toNat
    · rw [samples_getElem? _ _ i hi]
      have e1 : xs.length + 1 - cfg.SndOutPacketSize.toNat + i
          = xs.length - st.sndTempProgress.toNat + i := by omega
      rw [e1]
      by_cases hi2 : (i : Int) < st.sndTempProgress
      · rw [List.getElem?_append_left (by omega), h3 i hi2,
          Function.update_noteq (by omega)]
      · have e2 : (i : Int) = st.sndTempProgress := by omega
        rw [List.getElem?_append_right (by omega), e2, Function.update_same]
        have e3 : xs.length - st.sndTempProgress.toNat + i - xs.length = 0 := by omega
        rw [e3]
        rfl
    · rw [List.getElem?_eq_none (by rw [samples_length]; omega),
        List.getElem?_eq_none (by
          rw [List.length_append, List.length_singleton]
          omega)]
  · intro t ht
    unfold SndBuffer.flushPacket
    have hnot : ¬ t.ssFreeze > 0 := by omega
    simp only [if_neg hnot]
    cases cfg.dspBuild <;> cases cfg.dspPluginEnabled <;> simp
  · intro hmode t
    unfold SndBuffer.commitPacket
    rw [if_neg hmode]

set_option maxHeartbeats 4000000 in
/-- C14 as stated fails where the DSP block is compiled and the plugin is
enabled: in fixed-rate mode with the post-clear counter at 0, packets of 4
and a plugin that passes its buffer through, the packet handed to
`_WriteSamples` after 4 submitted samples is their down- and up-sampled image
(low 12 bits cleared), not the submitted samples; with a plugin that reports
no output nothing is handed to `_WriteSamples` at all. -/
theorem C14_counterexample :
    ((0 : Int) < (dspTestConfig 4).SndOutPacketSize ∧ (dspTestConfig 4).SynchMode = 2 ∧
      (dspTestConfig 4).mods[(testPipeline 0).OutputModule]? ≠ some NullOut ∧
      (testPipeline 0).sndTempProgress = 0 ∧ (testPipeline 0).ssFreeze = 0) ∧
    (SndBuffer.submitAll (dspTestConfig 4) (testPipeline 0)
      [ramp 5000 0, ramp 6000 0, ramp 7000 0, ramp 8200 0]).ring.m_wpos = 4 ∧
    samples (SndBuffer.submitAll (dspTestConfig 4) (testPipeline 0)
      [ramp 5000 0, ramp 6000 0, ramp 7000 0, ramp 8200 0]).ring.m_buffer 4
      = [⟨4096, -8192⟩, ⟨4096, -8192⟩, ⟨4096, -8192⟩, ⟨8192, -12288⟩] ∧
    ([⟨4096, -8192⟩, ⟨4096, -8192⟩, ⟨4096, -8192⟩, ⟨8192, -12288⟩] : List StereoOut32)
      ≠ [ramp 5000 0, ramp 6000 0, ramp 7000 0, ramp 8200 0] ∧
    (SndBuffer.submitAll (dspTestConfig 0) (testPipeline 0)
      [ramp 5000 0, ramp 6000 0, ramp 7000 0, ramp 8200 0]).ring.m_wpos = 0 ∧
    (SndBuffer.submitAll (dspTestConfig 0) (testPipeline 0)
      [ramp 5000 0, ramp 6000 0, ramp 7000 0, ramp 8200 0]).sndTempProgress = 0 :=
  ⟨by decide, by decide, by decide, by decide, by decide, by decide⟩

/-- C14, amended: with an active backend other than `NullOut`,
`SndOutPacketSize > 0` and an empty accumulator, after the samples `xs` have
been submitted with `Write`, `sndTempProgress` is
`xs.length mod SndOutPacketSize`; the next call only stores its sample when
its number `xs.length + 1` is not a multiple of `SndOutPacketSize`, and
flushes when it is; the packet flushed (the first `SndOutPacketSize` samples
of `sndTempBuffer` at that point) is the last `SndOutPacketSize` samples
submitted, in order.  When the post-clear counter is 0 and the DSP plugin
stage is not entered (block not compiled, or plugin disabled), the flushing
call in fixed-rate mode is exactly `_WriteSamples` of that packet, and in
adaptive-rate mode it hands exactly that packet to the time-stretcher. -/
theorem C14_packetizer (cfg : Config) (st0 : Pipeline) (xs : List StereoOut32)
    (x : StereoOut32) (hP : 0 < cfg.SndOutPacketSize)
    (hbackend : cfg.mods[st0.OutputModule]? ≠ some NullOut)
    (hempty : st0.sndTempProgress = 0) :
    (SndBuffer.submitAll cfg st0 xs).sndTempProgress
      = (xs.length : Int) % cfg.SndOutPacketSize ∧
    (((xs.length : Int) + 1) % cfg.SndOutPacketSize ≠ 0 →
      SndBuffer.Write cfg (SndBuffer.submitAll cfg st0 xs) x =
        { SndBuffer.submitAll cfg st0 xs with
          sndTempBuffer := Function.update (SndBuffer.submitAll cfg st0 xs).sndTempBuffer
            (SndBuffer.submitAll cfg st0 xs).sndTempProgress x
          sndTempProgress := (SndBuffer.submitAll cfg st0 xs).sndTempProgress + 1 }) ∧
    (((xs.length : Int) + 1) % cfg.SndOutPacketSize = 0 →
      SndBuffer.Write cfg (SndBuffer.submitAll cfg st0 xs) x =
        SndBuffer.flushPacket cfg
          { SndBuffer.submitAll cfg st0 xs with
            sndTempBuffer := Function.update (SndBuffer.submitAll cfg st0 xs).sndTempBuffer
              (SndBuffer.submitAll cfg st0 xs).sndTempProgress x
            sndTempProgress := 0 } ∧
      samples (Function.update (SndBuffer.submitAll cfg st0 xs).sndTempBuffer
          (SndBuffer.submitAll cfg st0 xs).sndTempProgress x) cfg.SndOutPacketSize.toNat
        = (xs ++ [x]).drop (xs.length + 1 - cfg.SndOutPacketSize.toNat)) ∧
    (((xs.length : Int) + 1) % cfg.SndOutPacketSize = 0 →
      (SndBuffer.submitAll cfg st0 xs).ssFreeze = 0 →
      ¬ (cfg.dspBuild = true ∧ cfg.dspPluginEnabled = true) →
      (cfg.SynchMode ≠ 0 →
        SndBuffer.Write cfg (SndBuffer.submitAll cfg st0 xs) x =
          { SndBuffer.submitAll cfg st0 xs with
            sndTempBuffer := Function.update (SndBuffer.submitAll cfg st0 xs).sndTempBuffer
              (SndBuffer.submitAll cfg st0 xs).sndTempProgress x
            sndTempProgress := 0
            ring := (SndBuffer.submitAll cfg st0 xs).ring._WriteSamples
              (Function.update (SndBuffer.submitAll cfg st0 xs).sndTempBuffer
                (SndBuffer.submitAll cfg st0 xs).sndTempProgress x)
              cfg.SndOutPacketSize }) ∧
      (cfg.SynchMode = 0 →
        SndBuffer.Write cfg (SndBuffer.submitAll cfg st0 xs) x =
          { SndBuffer.submitAll cfg st0 xs with
            sndTempBuffer := Function.update (SndBuffer.submitAll cfg st0 xs).sndTempBuffer
              (SndBuffer.submitAll cfg st0 xs).sndTempProgress x
            sndTempProgress := 0
            stretchWrites := (SndBuffer.submitAll cfg st0 xs).stretchWrites ++
              [(xs ++ [x]).drop (xs.length + 1 - cfg.SndOutPacketSize.toNat)] })) := by
  obtain ⟨h1, h2, h3, h4, h5⟩ := packetizer_steps cfg st0 xs x hP hbackend hempty
  refine ⟨h1, h2, h3, ?_⟩
  intro hzero hfreeze hdsp
  obtain ⟨hw, hsamples⟩ := h3 hzero
  rw [hw]
  generalize SndBuffer.submitAll cfg st0 xs = st at *
  have hflush := h4
    { st with
      sndTempBuffer := Function.update st.sndTempBuffer st.sndTempProgress x
      sndTempProgress := 0 } hfreeze
  rw [if_neg hdsp] at hflush
  rw [hflush]
  constructor
  · intro hmode
    rw [h5 hmode]
  · intro hmode
    unfold SndBuffer.commitPacket SndBuffer.timeStretchWrite
    rw [if_pos hmode]
    simp only
    rw [hsamples]

/-- C14 (amended) on packets of 4 samples in fixed-rate mode, DSP block not
compiled: after 3 samples the accumulator holds 3; the 4th call flushes, the
accumulator is empty again and the ring has received the 4 samples in order. -/
theorem C14_packetizer_witness :
    (SndBuffer.submitAll (testConfig 2 false false) (testPipeline 0)
      [ramp 1 0, ramp 2 0, ramp 3 0]).sndTempProgress = 3 ∧
    SndBuffer.Write (testConfig 2 false false)
        (SndBuffer.submitAll (testConfig 2 false false) (testPipeline 0)
          [ramp 1 0, ramp 2 0, ramp 3 0]) (ramp 4 0) =
      { SndBuffer.submitAll (testConfig 2 false false) (testPipeline 0)
          [ramp 1 0, ramp 2 0, ramp 3 0] with
        sndTempBuffer := Function.update (SndBuffer.submitAll (testConfig 2 false false)
            (testPipeline 0) [ramp 1 0, ramp 2 0, ramp 3 0]).sndTempBuffer
          (SndBuffer.submitAll (testConfig 2 false false) (testPipeline 0)
            [ramp 1 0, ramp 2 0, ramp 3 0]).sndTempProgress (ramp 4 0)
        sndTempProgress := 0
        ring := (SndBuffer.submitAll (testConfig 2 false false) (testPipeline 0)
            [ramp 1 0, ramp 2 0, ramp 3 0]).ring._WriteSamples
          (Function.update (SndBuffer.submitAll (testConfig 2 false false)
              (testPipeline 0) [ramp 1 0, ramp 2 0, ramp 3 0]).sndTempBuffer
            (SndBuffer.submitAll (testConfig 2 false false) (testPipeline 0)
              [ramp 1 0, ramp 2 0, ramp 3 0]).sndTempProgress (ramp 4 0))
          (testConfig 2 false false).SndOutPacketSize } ∧
    samples (SndBuffer.submitAll (testConfig 2 false false) (testPipeline 0)
      [ramp 1 0, ramp 2 0, ramp 3 0, ramp 4 0]).ring.m_buffer 4
      = [ramp 1 0, ramp 2 0, ramp 3 0, ramp 4 0] ∧
    (SndBuffer.submitAll (testConfig 2 false false) (testPipeline 0)
      [ramp 1 0, ramp 2 0, ramp 3 0, ramp 4 0]).ring.m_wpos = 4 :=
  have h := C14_packetizer (testConfig 2 false false) (testPipeline 0)
    [ramp 1 0, ramp 2 0, ramp 3 0] (ramp 4 0) (by decide) (by decide) rfl
  ⟨h.1, (h.2.2.2 (by decide) (by decide) (by decide)).1 (by decide), by decide, by decide⟩

/-! ## Post-clear silence counter -/

theorem flushPacket_counter (cfg : Config) (st : Pipeline) :
    (0 < st.ssFreeze → (SndBuffer.flushPacket cfg st).ssFreeze = st.ssFreeze - 1) ∧
    (st.ssFreeze ≤ 0 → (SndBuffer.flushPacket cfg st).ssFreeze = st.ssFreeze) := by
  have hc := fun t => (commitPacket_frame cfg t).2.2.1
  have hd := fun t => (dspStage_frame cfg t).2.2
  constructor
  · intro h
    unfold SndBuffer.flushPacket
    simp only [gt_iff_lt, if_pos h]
    split_ifs <;>
      first
      | rfl
      | exact (hd _).trans rfl
      | exact (hc _).trans rfl
  · intro h
    have hn : ¬ 0 < st.ssFreeze := by omega
    unfold SndBuffer.flushPacket
    simp only [gt_iff_lt, if_neg hn]
    split_ifs <;>
      first
      | exact hd _
      | exact hc _

theorem flushPacket_frozen_skips (cfg : Config) (st : Pipeline)
    (hbuild : cfg.dspBuild = false) (hfreeze : 0 < st.ssFreeze) :
    SndBuffer.flushPacket cfg st = SndBuffer.silencePacket cfg st ∧
    (SndBuffer.flushPacket cfg st).ring = st.ring ∧
    (SndBuffer.flushPacket cfg st).stretchWrites = st.stretchWrites := by
  have h : SndBuffer.flushPacket cfg st = SndBuffer.silencePacket cfg st := by
    unfold SndBuffer.flushPacket
    simp only [hbuild, Bool.false_eq_true, if_false, gt_iff_lt, if_pos hfreeze]
  rw [h]
  exact ⟨rfl, rfl, rfl⟩

theorem flushPacket_frozen_commits (cfg : Config) (st : Pipeline)
    (hbuild : cfg.dspBuild = true) (hplugin : cfg.dspPluginEnabled = false)
    (hfreeze : 0 < st.ssFreeze) :
    SndBuffer.flushPacket cfg st
      = SndBuffer.commitPacket cfg (SndBuffer.silencePacket cfg st) := by
  unfold SndBuffer.flushPacket
  simp only [hbuild, hplugin, if_true, Bool.false_eq_true, if_false, gt_iff_lt,
    if_pos hfreeze]

/-- C15, the code at the failing input: packets of 4 samples, the DSP block
not compiled, `deviceBackend` active, a ring of 64 slots holding old data, and
the counter armed by `ClearContents`.  After the 4 samples of one packet the
counter is 255, but nothing was committed: in fixed-rate mode the ring still
has `m_wpos = 0` and its old slots, in adaptive-rate mode the time-stretcher
received nothing.  With the DSP block compiled and the plugin disabled the
same calls commit an all-zero packet to the ring. -/
theorem C15_freeze_skips_commit :
    (SndBuffer.ClearContents { testPipeline 0 with ring := rampRing 64 0 0 false }).ssFreeze
      = 256 ∧
    (SndBuffer.submitAll (testConfig 2 false false)
      (SndBuffer.ClearContents { testPipeline 0 with ring := rampRing 64 0 0 false })
      [ramp 1 0, ramp 2 0, ramp 3 0, ramp 4 0]).ssFreeze = 255 ∧
    (SndBuffer.submitAll (testConfig 2 false false)
      (SndBuffer.ClearContents { testPipeline 0 with ring := rampRing 64 0 0 false })
      [ramp 1 0, ramp 2 0, ramp 3 0, ramp 4 0]).ring.m_wpos = 0 ∧
    samples (SndBuffer.submitAll (testConfig 2 false false)
      (SndBuffer.ClearContents { testPipeline 0 with ring := rampRing 64 0 0 false })
      [ramp 1 0, ramp 2 0, ramp 3 0, ramp 4 0]).ring.m_buffer 4
      = samples (ramp 100) 4 ∧
    (SndBuffer.submitAll (testConfig 0 false false)
      (SndBuffer.ClearContents { testPipeline 0 with ring := rampRing 64 0 0 false })
      [ramp 1 0, ramp 2 0, ramp 3 0, ramp 4 0]).stretchWrites = [] ∧
    (SndBuffer.submitAll (testConfig 2 true false)
      (SndBuffer.ClearContents { testPipeline 0 with ring := rampRing 64 0 0 false })
      [ramp 1 0, ramp 2 0, ramp 3 0, ramp 4 0]).ring.m_wpos = 4 ∧
    samples (SndBuffer.submitAll (testConfig 2 true false)
      (SndBuffer.ClearContents { testPipeline 0 with ring := rampRing 64 0 0 false })
      [ramp 1 0, ramp 2 0, ramp 3 0, ramp 4 0]).ring.m_buffer 4
      = List.replicate 4 StereoOut32.Empty := by
  decide

/-! ## Occupancy invariant within the 32-bit range -/

theorem runOps_append {T : Type} (ops : FrameOps T) (SndOutPacketSize SynchMode : Int)
    (avc : Bool) (pre post : List (SndBuffer.Op T)) :
    ∀ s, SndBuffer.runOps ops SndOutPacketSize SynchMode avc s (pre ++ post) =
      SndBuffer.runOps ops SndOutPacketSize SynchMode avc
        (SndBuffer.runOps ops SndOutPacketSize SynchMode avc s pre) post := by
  induction pre with
  | nil => intro s; rfl
  | cons op rest ih =>
    intro s
    simp only [List.cons_append, SndBuffer.runOps]
    exact ih _

theorem drop32_eq (s : SndBuffer) (n : Int)
    (h0 : -(2 ^ 31) ≤ s.m_rpos + n) (h1 : s.m_rpos + n < 2 ^ 31) :
    s._DropSamples_Internal32 n = s._DropSamples_Internal n := by
  unfold SndBuffer._DropSamples_Internal32 SndBuffer._DropSamples_Internal
  rw [wrap32_of_range _ h0 h1]

theorem occupancy32_eq (s : SndBuffer)
    (hr0 : 0 ≤ s.m_rpos) (hr1 : s.m_rpos < s.m_size)
    (hw0 : 0 ≤ s.m_wpos) (hw1 : s.m_wpos < s.m_size) (hcap : s.m_size ≤ 2 ^ 30) :
    s._GetApproximateDataInBuffer32 = s._GetApproximateDataInBuffer := by
  unfold SndBuffer._GetApproximateDataInBuffer32 SndBuffer._GetApproximateDataInBuffer
  rw [wrap32_of_range (s.m_wpos + s.m_size) (by omega) (by omega),
    wrap32_of_range (s.m_wpos + s.m_size - s.m_rpos) (by omega) (by omega)]

/-- C6 as stated fails for counts that leave the 32-bit range: on an
initialised ring of 3 slots, `_DropSamples_Internal(1)` leaves `m_rpos = 1`,
and `_DropSamples_Internal(2147483647)` then forms the `s32` sum
`1 + 2147483647`, which is `-2^31` in 32 bits, so that `m_rpos` becomes
`-2^31 % 3 = -2`, outside `[0, 3)`.  (The unbounded sum would give 2.) -/
theorem C6_counterexample :
    (0 < (ringOf 3 0 0 false).m_size ∧ (ringOf 3 0 0 false).m_rpos = 0 ∧
      (ringOf 3 0 0 false).m_wpos = 0) ∧
    ((0 : Int) ≤ 1 ∧ (0 : Int) ≤ 2147483647 ∧ (2147483647 : Int) < 2 ^ 31) ∧
    ((ringOf 3 0 0 false)._DropSamples_Internal32 1).m_rpos = 1 ∧
    (((ringOf 3 0 0 false)._DropSamples_Internal32 1)._DropSamples_Internal32
      2147483647).m_rpos = -2 ∧
    ¬ (0 ≤ (((ringOf 3 0 0 false)._DropSamples_Internal32 1)._DropSamples_Internal32
      2147483647).m_rpos) ∧
    (((ringOf 3 0 0 false)._DropSamples_Internal 1)._DropSamples_Internal
      2147483647).m_rpos = 2 := by
  decide

/-- C6, amended: in every state reached from an initialised ring
(`0 < m_size ≤ 2^30`, `m_rpos = m_wpos = 0`) by any sequence of
`_WriteSamples`, `_WriteSamples_Safe`, `ReadSamples`, `_ReadSamples_Safe` and
`_DropSamples_Internal` calls whose counts lie in `[0, 2^30]`, the capacity is
unchanged, both cursors lie in `[0, m_size)`, and
`_GetApproximateDataInBuffer` (also with its sum taken in 32 bits) returns
`(m_wpos - m_rpos + m_size) mod m_size`, which lies in `[0, m_size)`.  At
every call of the sequence the sums of a cursor with the count or with the
capacity fit in 32 bits, so the 32-bit `_DropSamples_Internal32` agrees with
`_DropSamples_Internal` there. -/
theorem C6_occupancy_invariant {T : Type} (ops : FrameOps T)
    (SndOutPacketSize SynchMode : Int) (avc : Bool) (s0 : SndBuffer)
    (calls : List (SndBuffer.Op T))
    (hsize : 0 < s0.m_size) (hcap : s0.m_size ≤ 2 ^ 30)
    (hr : s0.m_rpos = 0) (hw : s0.m_wpos = 0)
    (hcounts : ∀ op ∈ calls, (op.count : Int) ≤ 2 ^ 30) :
    (SndBuffer.runOps ops SndOutPacketSize SynchMode avc s0 calls).m_size = s0.m_size ∧
    (0 ≤ (SndBuffer.runOps ops SndOutPacketSize SynchMode avc s0 calls).m_rpos ∧
      (SndBuffer.runOps ops SndOutPacketSize SynchMode avc s0 calls).m_rpos < s0.m_size) ∧
    (0 ≤ (SndBuffer.runOps ops SndOutPacketSize SynchMode avc s0 calls).m_wpos ∧
      (SndBuffer.runOps ops SndOutPacketSize SynchMode avc s0 calls).m_wpos < s0.m_size) ∧
    (SndBuffer.runOps ops SndOutPacketSize SynchMode avc s0 calls)._GetApproximateDataInBuffer =
      ((SndBuffer.runOps ops SndOutPacketSize SynchMode avc s0 calls).m_wpos
        - (SndBuffer.runOps ops SndOutPacketSize SynchMode avc s0 calls).m_rpos + s0.m_size)
        % s0.m_size ∧
    (SndBuffer.runOps ops SndOutPacketSize SynchMode avc s0 calls)._GetApproximateDataInBuffer32
      = (SndBuffer.runOps ops SndOutPacketSize SynchMode avc s0
          calls)._GetApproximateDataInBuffer ∧
    (0 ≤ (SndBuffer.runOps ops SndOutPacketSize SynchMode avc s0
          calls)._GetApproximateDataInBuffer ∧
      (SndBuffer.runOps ops SndOutPacketSize SynchMode avc s0 calls)._GetApproximateDataInBuffer
        < s0.m_size) ∧
    (∀ (pre post : List (SndBuffer.Op T)) (op : SndBuffer.Op T), calls = pre ++ op :: post →
      (SndBuffer.runOps ops SndOutPacketSize SynchMode avc s0 pre).m_rpos + op.count < 2 ^ 31 ∧
      (SndBuffer.runOps ops SndOutPacketSize SynchMode avc s0 pre).m_wpos + op.count < 2 ^ 31 ∧
      (SndBuffer.runOps ops SndOutPacketSize SynchMode avc s0 pre).m_wpos
        + (SndBuffer.runOps ops SndOutPacketSize SynchMode avc s0 pre).m_size < 2 ^ 31 ∧
      (SndBuffer.runOps ops SndOutPacketSize SynchMode avc s0 pre)._DropSamples_Internal32
          op.count
        = (SndBuffer.runOps ops SndOutPacketSize SynchMode avc s0 pre)._DropSamples_Internal
          op.count) := by
  obtain ⟨h1, ⟨h2, h3⟩, ⟨h4, h5⟩, h6, h7, h8⟩ :=
    runOps_invariant ops SndOutPacketSize SynchMode avc s0 calls hsize hr hw
  refine ⟨h1, ⟨h2, h3⟩, ⟨h4, h5⟩, h6, ?_, ⟨h7, h8⟩, ?_⟩
  · exact occupancy32_eq _ h2 (by omega) h4 (by omega) (by omega)
  · intro pre post op hsplit
    obtain ⟨g1, g2, g3, g4, g5⟩ := runOps_cursors ops SndOutPacketSize SynchMode avc pre s0
      (by omega) (by omega) (by omega) (by omega)
    have hc : (op.count : Int) ≤ 2 ^ 30 :=
      hcounts op (by rw [hsplit]; exact List.mem_append_right _ (List.mem_cons_self _ _))
    have hc0 : (0 : Int) ≤ op.count := Int.ofNat_nonneg _
    refine ⟨by omega, by omega, by omega, drop32_eq _ _ (by omega) (by omega)⟩

/-- C6 (amended) at a ring of 8 slots after a write of 5, a read of 3, a
guarded write of 4 (which wraps), a drop of 2, a read of 1 and a guarded write
of 7 (which is refused). -/
theorem C6_occupancy_invariant_witness :
    ((0 : Int) < (ringOf 8 0 0 false).m_size ∧ (ringOf 8 0 0 false).m_size ≤ 2 ^ 30) ∧
    (SndBuffer.runOps rawFrame 4 2 false (ringOf 8 0 0 false)
      [SndBuffer.Op.WriteSamples_Safe (ramp 0) 5, SndBuffer.Op.ReadSamples (ramp 0) 3,
       SndBuffer.Op.WriteSamples (ramp 5) 4, SndBuffer.Op.DropSamples_Internal 2,
       SndBuffer.Op.ReadSamples_Safe (ramp 0) 1,
       SndBuffer.Op.WriteSamples (ramp 9) 7])._GetApproximateDataInBuffer < 8 :=
  ⟨by decide,
   (C6_occupancy_invariant rawFrame 4 2 false (ringOf 8 0 0 false)
      [SndBuffer.Op.WriteSamples_Safe (ramp 0) 5, SndBuffer.Op.ReadSamples (ramp 0) 3,
       SndBuffer.Op.WriteSamples (ramp 5) 4, SndBuffer.Op.DropSamples_Internal 2,
       SndBuffer.Op.ReadSamples_Safe (ramp 0) 1,
       SndBuffer.Op.WriteSamples (ramp 9) 7] (by decide) (by decide) rfl rfl
      (by simp [SndBuffer.Op.count])).2.2.2.2.2.1.2⟩

end SPU2
